import Mathlib

/-!
Verification development for `fp_analysis.py`, a driver that lowers source
files to LLVM IR with per-language frontends, runs an `opt` analysis pass on
the IR, and merges each per-file `.csv` report into a shared results file.

The embedding models paths and file contents as lists of characters, the
filesystem as an association list of files plus a set of directories, and
external tool invocations (`subprocess.run`) through an environment that maps
an argv vector to the files that invocation writes.  The script never
inspects exit codes of the tools it spawns, so the environment does not need
to model them.  Fallible Python operations (`os.remove`, `open`,
`shutil.move`) return `Except`-style results carrying the exception raised.
-/

/-- File paths and file contents, as Python strings (sequences of characters). -/
abbrev Str := List Char

/-- Coerce a Lean string literal into the `Str` model. -/
def chars (s : String) : Str := s.data

/-- The whitespace characters stripped by Python's `str.strip()`. -/
def isSpaceChar (c : Char) : Bool :=
  c = ' ' || c = '\t' || c = '\n' || c = '\r' || c = '\x0b' || c = '\x0c'

/-- Model of `str.strip()`: drop whitespace from both ends. -/
def stripL (s : Str) : Str :=
  ((s.dropWhile isSpaceChar).reverse.dropWhile isSpaceChar).reverse

/-- Model of `os.path.basename`: the suffix after the last `/`. -/
def basenameL (p : Str) : Str :=
  (p.reverse.takeWhile (fun c => c != '/')).reverse

/-- Model of `os.path.splitext`: split off the extension beginning at the last
dot of the basename, ignoring leading dots of the basename. -/
def splitextL (p : Str) : Str × Str :=
  let b := basenameL p
  let lead := (b.takeWhile (fun c => c == '.')).length
  let core := b.drop lead
  if '.' ∈ core then
    let extLen := (core.reverse.takeWhile (fun c => c != '.')).length + 1
    (p.take (p.length - extLen), p.drop (p.length - extLen))
  else (p, [])

/-- Model of `os.path.flatten` for the two-argument uses in the script. -/
def pathJoin (a b : Str) : Str :=
  if b.head? = some '/' then b
  else if a = [] then b
  else if a.getLast? = some '/' then a ++ b
  else a ++ '/' :: b

/-- Model of `os.path.expanduser` with a fixed home directory: a path starting
with the bare `~` component has it replaced by the home directory; other
paths (including `~user` forms, which would need a password-database lookup)
are returned unchanged. -/
def expanduser (home : Str) (p : Str) : Str :=
  match p with
  | '~' :: rest =>
    if rest = [] then home
    else if rest.head? = some '/' then home ++ rest
    else p
  | _ => p

/-- Python exceptions that the script can raise. -/
inductive PyErr where
  | typeError
  | fileNotFoundError (p : Str)
  | shutilError (p : Str)
deriving DecidableEq, Repr

/-- The filesystem: files as an association list from path to content, plus
the set of existing directories. -/
structure FS where
  files : List (Str × Str)
  dirs : List Str
deriving DecidableEq, Repr

/-- Lookup in an association list keyed by path. -/
def lookupKey (p : Str) : List (Str × Str) → Option Str
  | [] => none
  | e :: t => if e.1 = p then some e.2 else lookupKey p t

/-- Remove every entry with the given key. -/
def eraseKey (p : Str) : List (Str × Str) → List (Str × Str)
  | [] => []
  | e :: t => if e.1 = p then eraseKey p t else e :: eraseKey p t

def FS.lookup (fs : FS) (p : Str) : Option Str := lookupKey p fs.files

def FS.setFile (fs : FS) (p c : Str) : FS :=
  ⟨(p, c) :: eraseKey p fs.files, fs.dirs⟩

def FS.removeFile (fs : FS) (p : Str) : FS :=
  ⟨eraseKey p fs.files, fs.dirs⟩

/-- Model of `os.remove`: raises `FileNotFoundError` when the file is absent. -/
def pyRemove (fs : FS) (p : Str) : Except PyErr FS :=
  match fs.lookup p with
  | some _ => .ok (fs.removeFile p)
  | none => .error (.fileNotFoundError p)

/-- Model of `open(p, "r")` followed by reading the whole content. -/
def pyOpenRead (fs : FS) (p : Str) : Except PyErr Str :=
  match fs.lookup p with
  | some c => .ok c
  | none => .error (.fileNotFoundError p)

/-- Model of `open(p, "a")` followed by writing `c`: creates the file when absent,
otherwise appends to the existing content. -/
def pyAppend (fs : FS) (p c : Str) : FS :=
  fs.setFile p (((fs.lookup p).getD []) ++ c)

/-- Model of `os.makedirs(p, exist_ok=True)`: create-if-absent, idempotent. -/
def pyMakedirs (fs : FS) (p : Str) : FS :=
  if p ∈ fs.dirs then fs else ⟨fs.files, p :: fs.dirs⟩

/-- Model of `shutil.move(src, dst)`: when `dst` is a directory, the destination is
`dst/basename(src)` and an existing file there raises `shutil.Error`;
otherwise the source is renamed to `dst` directly. -/
def shutilMove (fs : FS) (src dst : Str) : Except PyErr FS :=
  if dst ∈ fs.dirs then
    let realDst := pathJoin dst (basenameL src)
    match fs.lookup realDst with
    | some _ => .error (.shutilError realDst)
    | none =>
      match fs.lookup src with
      | some c => .ok ((fs.removeFile src).setFile realDst c)
      | none => .error (.fileNotFoundError src)
  else
    match fs.lookup src with
    | some c => .ok ((fs.removeFile src).setFile dst c)
    | none => .error (.fileNotFoundError src)

/-- The behavior of the external tools: the home directory used by
`os.path.expanduser`, and, for each `subprocess.run` argv vector, the files
that invocation writes.  The script never checks exit codes, so they are not
modelled. -/
structure Env where
  home : Str
  effects : List Str → List (Str × Str)

/-- Model of `subprocess.run(argv)`: apply the invocation's filesystem effects. -/
def subprocessRun (env : Env) (argv : List Str) (fs : FS) : FS :=
  (env.effects argv).foldl (fun f e => f.setFile e.1 e.2) fs

/-- Result of one `run_pass` task: the `subprocess.run` invocations it issued
in order, the lines it printed, the filesystem when it finished or raised,
and the exception it raised (if any).  `multiprocessing`'s `apply_async`
silently discards a raised exception. -/
structure RunResult where
  calls : List (List Str)
  printed : List Str
  fs : FS
  err : Option PyErr
deriving DecidableEq, Repr

/-- The argv vector of the `opt` analysis invocation (source line 52). -/
def optArgv (file_name : Str) : List Str :=
  [chars "opt", chars "-disable-output", (splitextL file_name).1 ++ chars ".ll",
    chars "-passes=fp-module-analysis"]

/-- The merge-and-move tail shared by both branches of `run_pass`
(source lines 68-74 and 80-86): open the report at `base_name + ".csv"`,
append its full contents to `output_file`, and move the report into
`dir/file-results`. -/
def mergeBranch (dir output_file base_name : Str) (fs : FS)
    (calls : List (List Str)) : RunResult :=
  match pyOpenRead fs (base_name ++ chars ".csv") with
  | .error e => ⟨calls, [], fs, some e⟩
  | .ok content =>
    let fs1 := pyAppend fs output_file content
    let cf := pathJoin dir (chars "file-results")
    match shutilMove fs1 (base_name ++ chars ".csv") cf with
    | .error e => ⟨calls, [], fs1, some e⟩
    | .ok fs2 => ⟨calls, [], fs2, none⟩

/-- Source lines 52-86 of `run_pass`: run `opt` on the IR, strip the file
name, remove the IR artifact (raising `FileNotFoundError` when it is absent),
then merge the report — from the current working directory for `.rs` files,
from the expanded root directory for every other language. -/
def afterFrontend (env : Env) (dir output_file : Str) (file_name file_ext : Str)
    (calls : List (List Str)) (fs : FS) : RunResult :=
  let oa := optArgv file_name
  let fs1 := subprocessRun env oa fs
  let calls1 := calls ++ [oa]
  let fn := stripL file_name
  let base_name := (splitextL fn).1
  match pyRemove fs1 (base_name ++ chars ".ll") with
  | .error e => ⟨calls1, [], fs1, some e⟩
  | .ok fs2 =>
    if file_ext = chars ".rs" then
      mergeBranch dir output_file base_name fs2 calls1
    else
      let dir2 := expanduser env.home dir
      let fn2 := pathJoin dir2 fn
      let bn2 := (splitextL fn2).1
      mergeBranch dir2 output_file bn2 fs2 calls1

/-- The per-file pipeline `run_pass(dir, output_file, file_path, csv_folder)`
(source lines 15-86), translated clause by clause: dispatch the frontend on
the extension (returning silently for unsupported extensions), run the `opt`
pass, remove the IR, and merge the report. -/
def run_pass (env : Env) (dir output_file file_path csv_folder : Str)
    (fs : FS) : RunResult :=
  let file_name := basenameL file_path
  let file_ext := (splitextL file_name).2
  if file_ext = chars ".c" then
    let a := [chars "clang", chars "-emit-llvm", chars "-S", file_path]
    afterFrontend env dir output_file file_name file_ext [a] (subprocessRun env a fs)
  else if file_ext = chars ".cpp" then
    let a := [chars "clang++", chars "-emit-llvm", chars "-S", file_path]
    afterFrontend env dir output_file file_name file_ext [a] (subprocessRun env a fs)
  else if file_ext = chars ".hs" then
    let a := [chars "ghc", chars "-fllvm", chars "-keep-llvm-files", chars "-O2", file_path]
    afterFrontend env dir output_file file_name file_ext [a] (subprocessRun env a fs)
  else if file_ext = chars ".rs" then
    let a := [chars "rustc", chars "--emit=llvm-ir", file_path]
    afterFrontend env dir output_file file_name file_ext [a] (subprocessRun env a fs)
  else if file_ext = chars ".java" then
    let a := [chars "llvmc", chars "-emit-llvm", file_path]
    afterFrontend env dir output_file file_name file_ext [a] (subprocessRun env a fs)
  else if file_ext = chars ".swift" then
    let a := [chars "swiftc", chars "-emit-ir", file_path]
    afterFrontend env dir output_file file_name file_ext [a] (subprocessRun env a fs)
  else if file_ext = chars ".scala" then
    let a1 := [chars "scalac", chars "-Xassem-extdirs", chars ".", file_path]
    let fs1 := subprocessRun env a1 fs
    let a2 := [chars "llvm-dis", (splitextL file_name).1 ++ chars ".s"]
    let fs2 := subprocessRun env a2 fs1
    match pyRemove fs2 ((splitextL file_name).1 ++ chars ".s") with
    | .error e => ⟨[a1, a2], [], fs2, some e⟩
    | .ok fs3 => afterFrontend env dir output_file file_name file_ext [a1, a2] fs3
  else if file_ext = chars ".m" then
    let a := [chars "clang", chars "-emit-llvm", chars "-S", file_path, chars "-fobjc-arc"]
    afterFrontend env dir output_file file_name file_ext [a] (subprocessRun env a fs)
  else if file_ext = chars ".rb" then
    let a := [chars "ruby-llvm", chars "--emit-llvm", file_path]
    afterFrontend env dir output_file file_name file_ext [a] (subprocessRun env a fs)
  else ⟨[], [], fs, none⟩

/-- How the run of the whole program ended. -/
inductive Outcome where
  | exited (code : Nat)
  | crashed (e : PyErr)
deriving DecidableEq, Repr

/-- Result of the `__main__` driver: everything it printed, the file paths it
submitted to the pool, the `output_file` and `csv_folder` paths it computed,
the final filesystem, and how it ended. -/
structure MainResult where
  printed : List Str
  scheduled : List Str
  outputFile : Str
  csvFolder : Str
  fs : FS
  outcome : Outcome
deriving DecidableEq, Repr

/-- The language-token-to-extension `elif` chain (source lines 138-157):
`None` means the token falls through to `continue`. -/
def langToExt (lang : Str) : Option Str :=
  if lang = chars "c" then some (chars "c")
  else if lang = chars "c++" then some (chars "cpp")
  else if lang = chars "haskell" then some (chars "hs")
  else if lang = chars "rust" then some (chars "rs")
  else if lang = chars "java" then some (chars "java")
  else if lang = chars "swift" then some (chars "swift")
  else if lang = chars "scala" then some (chars "scala")
  else if lang = chars "objective-c" then some (chars "m")
  else if lang = chars "ruby" then some (chars "rb")
  else none

/-- Python `str.lower()`. -/
def lowerL (s : Str) : Str := s.map Char.toLower

/-- Model of the `os.walk` traversal joined with the entry names: every file
of the filesystem lying under the root directory. -/
def walkFiles (fs : FS) (root : Str) : List Str :=
  (fs.files.map (fun e => e.1)).filter (fun p => (root ++ chars "/").isPrefixOf p)

/-- The file paths submitted to the pool (source lines 115-171): with no
`--langs` filter (absent or empty), every file under the root; otherwise, for
each token in order, the files whose extension matches the token's resolved
extension, unresolved tokens contributing nothing. -/
def scheduledTasks (fs : FS) (root : Str) (langs : Option (List Str)) : List Str :=
  match langs with
  | none => walkFiles fs root
  | some [] => walkFiles fs root
  | some (t :: ts) =>
    (t :: ts).flatMap (fun lang =>
      match langToExt (lowerL lang) with
      | none => []
      | some ext =>
        (walkFiles fs root).filter
          (fun p => (splitextL (basenameL p)).2 == '.' :: ext))

/-- Drain the pool: run each submitted task in order, keeping its filesystem
effects and discarding any exception it raised (as `apply_async` does). -/
def runTasks (env : Env) (root output cf : Str) : List Str → FS → FS
  | [], fs => fs
  | p :: rest, fs => runTasks env root output cf rest (run_pass env root output p cf fs).fs

/-- The final line printed by the driver (source line 176). -/
def doneLine (output_file csv_folder : Str) : Str :=
  chars "Done. Check " ++ output_file ++ chars " and " ++ csv_folder ++ chars "."

/-- The message printed for an invalid root (source line 103). -/
def invalidDirLine (root : Str) : Str :=
  root ++ chars " is not a valid directory."

/-- The `__main__` driver (source lines 90-176): expand the `--dir` argument
(raising `TypeError` when it is absent, since `os.path.expanduser(None)` is
called before any check), print and exit with code 1 when the root is not a
directory, create `file-results`, schedule the tasks, drain the pool, and
print the final line. -/
def mainRun (env : Env) (argDir : Option Str) (argLangs : Option (List Str))
    (fs : FS) : MainResult :=
  match argDir with
  | none => ⟨[], [], [], [], fs, .crashed .typeError⟩
  | some d =>
    let root_dir := expanduser env.home d
    if root_dir ∈ fs.dirs then
      let output_file := pathJoin root_dir (chars "results.csv")
      let csv_folder := pathJoin root_dir (chars "file-results")
      let fs1 := pyMakedirs fs csv_folder
      let tasks := scheduledTasks fs1 root_dir argLangs
      let fs2 := runTasks env root_dir output_file csv_folder tasks fs1
      ⟨[doneLine output_file csv_folder], tasks, output_file, csv_folder, fs2, .exited 0⟩
    else
      ⟨[invalidDirLine root_dir], [], [], [], fs, .exited 1⟩

/-! ### Basic lemmas about the association-list filesystem -/

theorem lookupKey_eraseKey_self (p : Str) (l : List (Str × Str)) :
    lookupKey p (eraseKey p l) = none := by
  induction l with
  | nil => rfl
  | cons e t ih =>
    by_cases h : e.1 = p
    · simpa [eraseKey, h] using ih
    · simpa [eraseKey, lookupKey, h] using ih

theorem lookupKey_eraseKey_ne {q p : Str} (h : q ≠ p) (l : List (Str × Str)) :
    lookupKey q (eraseKey p l) = lookupKey q l := by
  induction l with
  | nil => rfl
  | cons e t ih =>
    by_cases h1 : e.1 = p
    · have h2 : e.1 ≠ q := by rw [h1]; exact Ne.symm h
      simp [eraseKey, lookupKey, h1, h2, ih, Ne.symm h]
    · simp only [eraseKey, if_neg h1, lookupKey, ih]

theorem FS.lookup_setFile_self (fs : FS) (p c : Str) :
    (fs.setFile p c).lookup p = some c := by
  simp [FS.lookup, FS.setFile, lookupKey]

theorem FS.lookup_setFile_ne (fs : FS) (p c : Str) {q : Str} (h : q ≠ p) :
    (fs.setFile p c).lookup q = fs.lookup q := by
  simp only [FS.lookup, FS.setFile, lookupKey, if_neg (Ne.symm h)]
  exact lookupKey_eraseKey_ne h fs.files

theorem FS.lookup_removeFile (fs : FS) (p q : Str) :
    (fs.removeFile p).lookup q = if q = p then none else fs.lookup q := by
  by_cases h : q = p
  · subst h; simp only [if_pos rfl, FS.lookup, FS.removeFile]
    exact lookupKey_eraseKey_self q fs.files
  · simp only [if_neg h, FS.lookup, FS.removeFile]
    exact lookupKey_eraseKey_ne h fs.files

theorem FS.dirs_setFile (fs : FS) (p c : Str) : (fs.setFile p c).dirs = fs.dirs := rfl

theorem FS.dirs_removeFile (fs : FS) (p : Str) : (fs.removeFile p).dirs = fs.dirs := rfl

theorem FS.dirs_pyAppend (fs : FS) (p c : Str) : (pyAppend fs p c).dirs = fs.dirs := rfl

theorem dirs_foldl_setFile (l : List (Str × Str)) (fs : FS) :
    (l.foldl (fun f e => f.setFile e.1 e.2) fs).dirs = fs.dirs := by
  induction l generalizing fs with
  | nil => rfl
  | cons e t ih => simpa [List.foldl] using ih (fs.setFile e.1 e.2)

theorem dirs_subprocessRun (env : Env) (argv : List Str) (fs : FS) :
    (subprocessRun env argv fs).dirs = fs.dirs :=
  dirs_foldl_setFile (env.effects argv) fs

theorem FS.lookup_pyMakedirs (fs : FS) (d p : Str) :
    (pyMakedirs fs d).lookup p = fs.lookup p := by
  unfold pyMakedirs
  split <;> rfl

theorem pyMakedirs_of_mem (fs : FS) {p : Str} (h : p ∈ fs.dirs) :
    pyMakedirs fs p = fs := by
  unfold pyMakedirs
  exact if_pos h

/-! ### Lemmas about the path model -/

theorem takeWhile_eq_self_of_all {p : Char → Bool} {l : Str}
    (h : ∀ c ∈ l, p c = true) : l.takeWhile p = l := by
  induction l with
  | nil => rfl
  | cons a t ih =>
    rw [List.takeWhile_cons_of_pos (h a (List.mem_cons_self a t))]
    rw [ih (fun c hc => h c (List.mem_cons_of_mem a hc))]

theorem takeWhile_append_stop {p : Char → Bool} {xs : Str} (y : Char) (ys : Str)
    (hxs : ∀ c ∈ xs, p c = true) (hy : p y = false) :
    (xs ++ y :: ys).takeWhile p = xs := by
  induction xs with
  | nil => simp [List.takeWhile_cons_of_neg, hy]
  | cons a t ih =>
    rw [List.cons_append, List.takeWhile_cons_of_pos (hxs a (List.mem_cons_self a t))]
    rw [ih (fun c hc => hxs c (List.mem_cons_of_mem a hc))]

theorem dropWhile_eq_self_of_all {p : Char → Bool} {l : Str}
    (h : ∀ c ∈ l, p c = false) : l.dropWhile p = l := by
  cases l with
  | nil => rfl
  | cons a t =>
    rw [List.dropWhile_cons]
    simp [h a (List.mem_cons_self a t)]

theorem stripL_eq_self {l : Str} (h : ∀ c ∈ l, isSpaceChar c = false) :
    stripL l = l := by
  unfold stripL
  rw [dropWhile_eq_self_of_all h,
    dropWhile_eq_self_of_all (fun c hc => h c (List.mem_reverse.mp hc)),
    List.reverse_reverse]

theorem basenameL_of_noslash {l : Str} (h : ∀ c ∈ l, c ≠ '/') :
    basenameL l = l := by
  unfold basenameL
  rw [takeWhile_eq_self_of_all (fun c hc => by
    simpa using h c (List.mem_reverse.mp hc)), List.reverse_reverse]

theorem head?_append_left {b : Str} (x : Str) (hb : b ≠ []) :
    (b ++ x).head? = b.head? := by
  cases b with
  | nil => exact absurd rfl hb
  | cons a t => rfl

theorem ne_nil_of_getLast?_eq_some {l : Str} {c : Char} (h : l.getLast? = some c) :
    l ≠ [] := by
  intro e
  rw [e] at h
  cases h

theorem ne_of_getLast?_ne {x y : Str} (h : x.getLast? ≠ y.getLast?) : x ≠ y :=
  fun e => h (by rw [e])

theorem pathJoin_nil_left (b : Str) : pathJoin [] b = b := by
  unfold pathJoin
  split
  · rfl
  · rw [if_pos rfl]

theorem getLast?_pathJoin (a : Str) {b : Str} (hb : b ≠ []) :
    (pathJoin a b).getLast? = b.getLast? := by
  unfold pathJoin
  split
  · rfl
  split
  · rfl
  split
  · exact List.getLast?_append_of_ne_nil a hb
  · rw [show a ++ '/' :: b = a ++ ('/' :: b) from rfl,
      List.getLast?_append_of_ne_nil a (by simp)]
    cases b with
    | nil => exact absurd rfl hb
    | cons x t => exact List.getLast?_cons_cons

theorem pathJoin_append (d : Str) {b : Str} (x : Str) (hb : b ≠ []) :
    pathJoin d (b ++ x) = pathJoin d b ++ x := by
  unfold pathJoin
  rw [head?_append_left x hb]
  by_cases h1 : b.head? = some '/'
  · rw [if_pos h1, if_pos h1]
  · rw [if_neg h1, if_neg h1]
    by_cases h2 : d = []
    · rw [if_pos h2, if_pos h2]
    · rw [if_neg h2, if_neg h2]
      by_cases h3 : d.getLast? = some '/'
      · rw [if_pos h3, if_pos h3, List.append_assoc]
      · rw [if_neg h3, if_neg h3]
        simp

theorem basenameL_pathJoin (d : Str) {m : Str} (hm : m ≠ [])
    (h : ∀ c ∈ m, c ≠ '/') : basenameL (pathJoin d m) = m := by
  have hhead : ¬ m.head? = some '/' := by
    cases m with
    | nil => exact absurd rfl hm
    | cons a t => simpa using h a (List.mem_cons_self a t)
  have hall : ∀ c ∈ m.reverse, (c != '/') = true := fun c hc => by
    simpa using h c (List.mem_reverse.mp hc)
  unfold pathJoin
  rw [if_neg hhead]
  by_cases h2 : d = []
  · rw [if_pos h2]
    exact basenameL_of_noslash h
  · rw [if_neg h2]
    by_cases h3 : d.getLast? = some '/'
    · rw [if_pos h3]
      have hrev : d.reverse.head? = some '/' := by rw [List.head?_reverse]; exact h3
      obtain ⟨t, ht⟩ : ∃ t, d.reverse = '/' :: t := by
        cases hr : d.reverse with
        | nil => rw [hr] at hrev; cases hrev
        | cons a s =>
          rw [hr] at hrev
          cases hrev
          exact ⟨s, rfl⟩
      unfold basenameL
      rw [List.reverse_append, ht, takeWhile_append_stop '/' t hall (by decide),
        List.reverse_reverse]
    · rw [if_neg h3]
      unfold basenameL
      rw [show (d ++ '/' :: m).reverse = m.reverse ++ '/' :: d.reverse from by simp,
        takeWhile_append_stop '/' d.reverse hall (by decide), List.reverse_reverse]

/-- A well-formed file stem: nonempty, with no separator, no dot and no
whitespace character. -/
def goodBase (b : Str) : Bool :=
  !b.isEmpty && b.all (fun c => c != '/' && c != '.' && !isSpaceChar c)

/-- A well-formed extension body: nonempty, with no separator and no dot. -/
def extOk (e : Str) : Bool :=
  !e.isEmpty && e.all (fun c => c != '/' && c != '.')

theorem goodBase_spec {b : Str} (h : goodBase b = true) :
    b ≠ [] ∧ ∀ c ∈ b, c ≠ '/' ∧ c ≠ '.' ∧ isSpaceChar c = false := by
  unfold goodBase at h
  rw [Bool.and_eq_true, List.all_eq_true] at h
  refine ⟨by simpa [List.isEmpty_iff] using h.1, fun c hc => ?_⟩
  have h2 := h.2 c hc
  simp only [Bool.and_eq_true, bne_iff_ne, Bool.not_eq_true'] at h2
  exact ⟨h2.1.1, h2.1.2, h2.2⟩

theorem extOk_spec {e : Str} (h : extOk e = true) :
    e ≠ [] ∧ ∀ c ∈ e, c ≠ '/' ∧ c ≠ '.' := by
  unfold extOk at h
  rw [Bool.and_eq_true, List.all_eq_true] at h
  refine ⟨by simpa [List.isEmpty_iff] using h.1, fun c hc => ?_⟩
  have h2 := h.2 c hc
  simp only [Bool.and_eq_true, bne_iff_ne] at h2
  exact h2

theorem getLast?_append_ll (x : Str) : (x ++ chars ".ll").getLast? = some 'l' := by
  rw [List.getLast?_append_of_ne_nil x (by decide)]
  rfl

theorem getLast?_append_csv (x : Str) : (x ++ chars ".csv").getLast? = some 'v' := by
  rw [List.getLast?_append_of_ne_nil x (by decide)]
  rfl

theorem getLast?_basenameL_append_csv (x : Str) :
    (basenameL (x ++ chars ".csv")).getLast? = some 'v' := by
  unfold basenameL
  rw [List.getLast?_reverse]
  have hrev : (x ++ chars ".csv").reverse = 'v' :: 's' :: 'c' :: '.' :: x.reverse := by
    rw [List.reverse_append]
    rfl
  rw [hrev, List.takeWhile_cons_of_pos (by decide)]
  rfl

theorem splitextL_pathJoin_good (d : Str) {b e : Str}
    (hb : goodBase b = true) (he : extOk e = true) :
    splitextL (pathJoin d (b ++ '.' :: e)) = (pathJoin d b, '.' :: e) := by
  obtain ⟨hb0, hbc⟩ := goodBase_spec hb
  obtain ⟨he0, hec⟩ := extOk_spec he
  have hm0 : b ++ '.' :: e ≠ [] := by
    intro h
    exact hb0 (List.append_eq_nil.mp h).1
  have hnos : ∀ c ∈ b ++ '.' :: e, c ≠ '/' := by
    intro c hc
    rcases List.mem_append.mp hc with h1 | h1
    · exact (hbc c h1).1
    · rcases List.mem_cons.mp h1 with h2 | h2
      · rw [h2]; decide
      · exact (hec c h2).1
  have hbn : basenameL (pathJoin d (b ++ '.' :: e)) = b ++ '.' :: e :=
    basenameL_pathJoin d hm0 hnos
  have hlead : (b ++ '.' :: e).takeWhile (fun c => c == '.') = [] := by
    cases b with
    | nil => exact absurd rfl hb0
    | cons c0 b1 =>
      rw [List.cons_append]
      exact List.takeWhile_cons_of_neg (by
        simpa using (hbc c0 (List.mem_cons_self c0 b1)).2.1)
  have hmem : '.' ∈ b ++ '.' :: e :=
    List.mem_append_right b (List.mem_cons_self '.' e)
  have hrev : (b ++ '.' :: e).reverse = e.reverse ++ '.' :: b.reverse := by
    rw [List.reverse_append, List.reverse_cons, List.append_assoc]
    rfl
  have htw : ((b ++ '.' :: e).reverse.takeWhile (fun c => c != '.')) = e.reverse := by
    rw [hrev]
    exact takeWhile_append_stop '.' b.reverse
      (fun c hc => by simpa using (hec c (List.mem_reverse.mp hc)).2) (by decide)
  have hsplit_p : pathJoin d (b ++ '.' :: e) = pathJoin d b ++ '.' :: e :=
    pathJoin_append d ('.' :: e) hb0
  have hlen : (pathJoin d b ++ '.' :: e).length - (e.length + 1) =
      (pathJoin d b).length := by
    rw [List.length_append, List.length_cons]
    omega
  have hbn2 : basenameL (pathJoin d b ++ '.' :: e) = b ++ '.' :: e := by
    rw [← hsplit_p]
    exact hbn
  simp only [splitextL, hsplit_p, hbn2, hlead, List.length_nil, List.drop_zero,
    if_pos hmem, htw, List.length_reverse, hlen]
  rw [List.take_left, List.drop_left]

theorem splitextL_good {b e : Str} (hb : goodBase b = true) (he : extOk e = true) :
    splitextL (b ++ '.' :: e) = (b, '.' :: e) := by
  have h := splitextL_pathJoin_good [] hb he
  rwa [pathJoin_nil_left, pathJoin_nil_left] at h

/-! ### The merge stage on a present report -/

theorem mergeBranch_success (dir output_file bn : Str) (fs : FS)
    (calls : List (List Str)) {rep tgt : Str}
    (hsrc : fs.lookup (bn ++ chars ".csv") = some rep)
    (hdirs : pathJoin dir (chars "file-results") ∈ fs.dirs)
    (htgt : pathJoin (pathJoin dir (chars "file-results"))
      (basenameL (bn ++ chars ".csv")) = tgt)
    (hfree : fs.lookup tgt = none)
    (htgt_out : tgt ≠ output_file)
    (hsrc_out : bn ++ chars ".csv" ≠ output_file) :
    mergeBranch dir output_file bn fs calls =
      ⟨calls, [],
        ((pyAppend fs output_file rep).removeFile (bn ++ chars ".csv")).setFile tgt rep,
        none⟩ := by
  have h1 : pyOpenRead fs (bn ++ chars ".csv") = .ok rep := by
    unfold pyOpenRead
    rw [hsrc]
  have hl1 : (pyAppend fs output_file rep).lookup tgt = none := by
    unfold pyAppend
    rw [FS.lookup_setFile_ne _ _ _ htgt_out]
    exact hfree
  have hl2 : (pyAppend fs output_file rep).lookup (bn ++ chars ".csv") = some rep := by
    unfold pyAppend
    rw [FS.lookup_setFile_ne _ _ _ hsrc_out]
    exact hsrc
  have h2 : shutilMove (pyAppend fs output_file rep) (bn ++ chars ".csv")
      (pathJoin dir (chars "file-results")) =
      .ok (((pyAppend fs output_file rep).removeFile (bn ++ chars ".csv")).setFile tgt rep) := by
    unfold shutilMove
    rw [if_pos (show pathJoin dir (chars "file-results") ∈
      (pyAppend fs output_file rep).dirs from by
        rw [FS.dirs_pyAppend]
        exact hdirs)]
    simp only [htgt, hl1, hl2]
  simp only [mergeBranch, h1, h2]

/-! ### The full pipeline on a `.c` file whose toolchain behaves -/

/-- The path at which the non-Rust branch of `run_pass` looks for the report
of a file with stem `b`: `<expanded dir>/<b>.csv`. -/
def cPath (env : Env) (dir b : Str) : Str :=
  pathJoin (expanduser env.home dir) b ++ chars ".csv"

/-- The path to which the non-Rust branch of `run_pass` moves the report:
`<expanded dir>/file-results/<b>.csv`. -/
def cTarget (env : Env) (dir b : Str) : Str :=
  pathJoin (pathJoin (expanduser env.home dir) (chars "file-results")) (b ++ chars ".csv")

theorem run_pass_c_success (env : Env) (dir output_file fp cfArg b irc rep : Str) (fs : FS)
    (hb : goodBase b = true)
    (hbn : basenameL fp = b ++ chars ".c")
    (hclang : env.effects [chars "clang", chars "-emit-llvm", chars "-S", fp] =
      [(b ++ chars ".ll", irc)])
    (hopt : env.effects (optArgv (b ++ chars ".c")) = [(cPath env dir b, rep)])
    (hne2 : output_file ≠ cPath env dir b)
    (hne3 : cTarget env dir b ≠ output_file)
    (hne4 : cTarget env dir b ≠ cPath env dir b)
    (hdir : pathJoin (expanduser env.home dir) (chars "file-results") ∈ fs.dirs)
    (hfree : fs.lookup (cTarget env dir b) = none) :
    run_pass env dir output_file fp cfArg fs =
      ⟨[[chars "clang", chars "-emit-llvm", chars "-S", fp], optArgv (b ++ chars ".c")],
       [],
       ((pyAppend (((fs.setFile (b ++ chars ".ll") irc).setFile (cPath env dir b) rep).removeFile
           (b ++ chars ".ll")) output_file rep).removeFile (cPath env dir b)).setFile
         (cTarget env dir b) rep,
       none⟩ := by
  obtain ⟨hb0, hbc⟩ := goodBase_spec hb
  have hcc : chars ".c" = '.' :: chars "c" := rfl
  have hext : splitextL (b ++ chars ".c") = (b, chars ".c") := by
    rw [hcc]
    exact splitextL_good hb (by decide)
  have hstrip : stripL (b ++ chars ".c") = b ++ chars ".c" := by
    refine stripL_eq_self (fun c hc => ?_)
    rcases List.mem_append.mp hc with h1 | h1
    · exact (hbc c h1).2.2
    · have h2 : c = '.' ∨ c = 'c' := by
        rw [show chars ".c" = ['.', 'c'] from rfl] at h1
        simpa using h1
      rcases h2 with h2 | h2 <;> subst h2 <;> decide
  have hlastll : (b ++ chars ".ll").getLast? = some 'l' := getLast?_append_ll b
  have hlastcp : (cPath env dir b).getLast? = some 'v' := by
    unfold cPath
    exact getLast?_append_csv _
  have hllcsv : b ++ chars ".ll" ≠ cPath env dir b :=
    ne_of_getLast?_ne (by rw [hlastll, hlastcp]; decide)
  have htl : (cTarget env dir b).getLast? = some 'v' := by
    unfold cTarget
    rw [getLast?_pathJoin _ (fun h => hb0 (List.append_eq_nil.mp h).1),
      getLast?_append_csv]
  have hlltgt : b ++ chars ".ll" ≠ cTarget env dir b :=
    ne_of_getLast?_ne (by rw [hlastll, htl]; decide)
  have hsub1 : subprocessRun env [chars "clang", chars "-emit-llvm", chars "-S", fp] fs =
      fs.setFile (b ++ chars ".ll") irc := by
    unfold subprocessRun
    rw [hclang]
    rfl
  have hsub2 : subprocessRun env (optArgv (b ++ chars ".c"))
      (fs.setFile (b ++ chars ".ll") irc) =
      (fs.setFile (b ++ chars ".ll") irc).setFile (cPath env dir b) rep := by
    unfold subprocessRun
    rw [hopt]
    rfl
  have hrem : pyRemove ((fs.setFile (b ++ chars ".ll") irc).setFile (cPath env dir b) rep)
      (b ++ chars ".ll") =
      .ok (((fs.setFile (b ++ chars ".ll") irc).setFile (cPath env dir b) rep).removeFile
        (b ++ chars ".ll")) := by
    unfold pyRemove
    rw [FS.lookup_setFile_ne _ _ _ hllcsv, FS.lookup_setFile_self]
  have hext2 : splitextL (pathJoin (expanduser env.home dir) (b ++ chars ".c")) =
      (pathJoin (expanduser env.home dir) b, chars ".c") := by
    rw [hcc]
    exact splitextL_pathJoin_good _ hb (by decide)
  have hbnm : basenameL (pathJoin (expanduser env.home dir) b ++ chars ".csv") =
      b ++ chars ".csv" := by
    rw [← pathJoin_append _ (chars ".csv") hb0]
    refine basenameL_pathJoin _ (fun h => hb0 (List.append_eq_nil.mp h).1) ?_
    intro c hc
    rcases List.mem_append.mp hc with h1 | h1
    · exact (hbc c h1).1
    · have h2 : c = '.' ∨ c = 'c' ∨ c = 's' ∨ c = 'v' := by
        rw [show chars ".csv" = ['.', 'c', 's', 'v'] from rfl] at h1
        simpa using h1
      rcases h2 with h2 | h2 | h2 | h2 <;> subst h2 <;> decide
  have hfs2src : (((fs.setFile (b ++ chars ".ll") irc).setFile (cPath env dir b) rep).removeFile
      (b ++ chars ".ll")).lookup (cPath env dir b) = some rep := by
    rw [FS.lookup_removeFile, if_neg (Ne.symm hllcsv), FS.lookup_setFile_self]
  have hfs2tgt : (((fs.setFile (b ++ chars ".ll") irc).setFile (cPath env dir b) rep).removeFile
      (b ++ chars ".ll")).lookup (cTarget env dir b) = none := by
    rw [FS.lookup_removeFile, if_neg (Ne.symm hlltgt),
      FS.lookup_setFile_ne _ _ _ hne4, FS.lookup_setFile_ne _ _ _ (Ne.symm hlltgt)]
    exact hfree
  have hfs2dirs : pathJoin (expanduser env.home dir) (chars "file-results") ∈
      (((fs.setFile (b ++ chars ".ll") irc).setFile (cPath env dir b) rep).removeFile
        (b ++ chars ".ll")).dirs := by
    rw [FS.dirs_removeFile, FS.dirs_setFile, FS.dirs_setFile]
    exact hdir
  have hmerge := mergeBranch_success (expanduser env.home dir) output_file
    (pathJoin (expanduser env.home dir) b)
    (((fs.setFile (b ++ chars ".ll") irc).setFile (cPath env dir b) rep).removeFile
      (b ++ chars ".ll"))
    [[chars "clang", chars "-emit-llvm", chars "-S", fp], optArgv (b ++ chars ".c")]
    hfs2src hfs2dirs (by rw [hbnm]; rfl) hfs2tgt hne3 (Ne.symm hne2)
  simp only [run_pass, hbn, hext, if_pos rfl, hsub1, afterFrontend, hsub2, hstrip,
    hext, hrem, if_neg (show ¬ chars ".c" = chars ".rs" by decide), hext2]
  exact hmerge

theorem run_pass_c_success_state (env : Env) (dir output_file fp cfArg b irc rep : Str)
    (fs : FS)
    (hb : goodBase b = true)
    (hbn : basenameL fp = b ++ chars ".c")
    (hclang : env.effects [chars "clang", chars "-emit-llvm", chars "-S", fp] =
      [(b ++ chars ".ll", irc)])
    (hopt : env.effects (optArgv (b ++ chars ".c")) = [(cPath env dir b, rep)])
    (hne1 : output_file ≠ b ++ chars ".ll")
    (hne2 : output_file ≠ cPath env dir b)
    (hne3 : cTarget env dir b ≠ output_file)
    (hne4 : cTarget env dir b ≠ cPath env dir b)
    (hdir : pathJoin (expanduser env.home dir) (chars "file-results") ∈ fs.dirs)
    (hfree : fs.lookup (cTarget env dir b) = none) :
    (run_pass env dir output_file fp cfArg fs).err = none ∧
    (run_pass env dir output_file fp cfArg fs).printed = [] ∧
    (run_pass env dir output_file fp cfArg fs).fs.lookup output_file =
      some ((fs.lookup output_file).getD [] ++ rep) ∧
    (run_pass env dir output_file fp cfArg fs).fs.lookup (cTarget env dir b) = some rep ∧
    (run_pass env dir output_file fp cfArg fs).fs.lookup (cPath env dir b) = none ∧
    (run_pass env dir output_file fp cfArg fs).fs.lookup (b ++ chars ".ll") = none := by
  have hlastll : (b ++ chars ".ll").getLast? = some 'l' := getLast?_append_ll b
  have hlastcp : (cPath env dir b).getLast? = some 'v' := by
    unfold cPath
    exact getLast?_append_csv _
  have hllcsv : b ++ chars ".ll" ≠ cPath env dir b :=
    ne_of_getLast?_ne (by rw [hlastll, hlastcp]; decide)
  have hb0 : b ≠ [] := (goodBase_spec hb).1
  have htl : (cTarget env dir b).getLast? = some 'v' := by
    unfold cTarget
    rw [getLast?_pathJoin _ (fun h => hb0 (List.append_eq_nil.mp h).1),
      getLast?_append_csv]
  have hlltgt : b ++ chars ".ll" ≠ cTarget env dir b :=
    ne_of_getLast?_ne (by rw [hlastll, htl]; decide)
  rw [run_pass_c_success env dir output_file fp cfArg b irc rep fs hb hbn hclang hopt
    hne2 hne3 hne4 hdir hfree]
  refine ⟨rfl, rfl, ?_, ?_, ?_, ?_⟩
  · rw [FS.lookup_setFile_ne _ _ _ (Ne.symm hne3), FS.lookup_removeFile, if_neg hne2]
    unfold pyAppend
    rw [FS.lookup_setFile_self, FS.lookup_removeFile, if_neg hne1,
      FS.lookup_setFile_ne _ _ _ hne2, FS.lookup_setFile_ne _ _ _ hne1]
  · exact FS.lookup_setFile_self _ _ _
  · rw [FS.lookup_setFile_ne _ _ _ (Ne.symm hne4), FS.lookup_removeFile, if_pos rfl]
  · rw [FS.lookup_setFile_ne _ _ _ hlltgt, FS.lookup_removeFile, if_neg hllcsv]
    unfold pyAppend
    rw [FS.lookup_setFile_ne _ _ _ (Ne.symm hne1), FS.lookup_removeFile, if_pos rfl]

/-! ### The merge stage on an absent report, and the `.c` pipeline without one -/

theorem mergeBranch_missing (dir output_file bn : Str) (fs : FS)
    (calls : List (List Str))
    (h : fs.lookup (bn ++ chars ".csv") = none) :
    mergeBranch dir output_file bn fs calls =
      ⟨calls, [], fs, some (.fileNotFoundError (bn ++ chars ".csv"))⟩ := by
  have h1 : pyOpenRead fs (bn ++ chars ".csv") =
      .error (.fileNotFoundError (bn ++ chars ".csv")) := by
    unfold pyOpenRead
    rw [h]
  simp only [mergeBranch, h1]

theorem run_pass_c_noreport (env : Env) (dir output_file fp cfArg b irc : Str) (fs : FS)
    (hb : goodBase b = true)
    (hbn : basenameL fp = b ++ chars ".c")
    (hclang : env.effects [chars "clang", chars "-emit-llvm", chars "-S", fp] =
      [(b ++ chars ".ll", irc)])
    (hopt : env.effects (optArgv (b ++ chars ".c")) = [])
    (hnone : fs.lookup (cPath env dir b) = none) :
    run_pass env dir output_file fp cfArg fs =
      ⟨[[chars "clang", chars "-emit-llvm", chars "-S", fp], optArgv (b ++ chars ".c")],
       [],
       (fs.setFile (b ++ chars ".ll") irc).removeFile (b ++ chars ".ll"),
       some (.fileNotFoundError (cPath env dir b))⟩ := by
  obtain ⟨hb0, hbc⟩ := goodBase_spec hb
  have hcc : chars ".c" = '.' :: chars "c" := rfl
  have hext : splitextL (b ++ chars ".c") = (b, chars ".c") := by
    rw [hcc]
    exact splitextL_good hb (by decide)
  have hstrip : stripL (b ++ chars ".c") = b ++ chars ".c" := by
    refine stripL_eq_self (fun c hc => ?_)
    rcases List.mem_append.mp hc with h1 | h1
    · exact (hbc c h1).2.2
    · have h2 : c = '.' ∨ c = 'c' := by
        rw [show chars ".c" = ['.', 'c'] from rfl] at h1
        simpa using h1
      rcases h2 with h2 | h2 <;> subst h2 <;> decide
  have hlastll : (b ++ chars ".ll").getLast? = some 'l' := getLast?_append_ll b
  have hlastcp : (cPath env dir b).getLast? = some 'v' := by
    unfold cPath
    exact getLast?_append_csv _
  have hllcsv : b ++ chars ".ll" ≠ cPath env dir b :=
    ne_of_getLast?_ne (by rw [hlastll, hlastcp]; decide)
  have hsub1 : subprocessRun env [chars "clang", chars "-emit-llvm", chars "-S", fp] fs =
      fs.setFile (b ++ chars ".ll") irc := by
    unfold subprocessRun
    rw [hclang]
    rfl
  have hsub2 : subprocessRun env (optArgv (b ++ chars ".c"))
      (fs.setFile (b ++ chars ".ll") irc) = fs.setFile (b ++ chars ".ll") irc := by
    unfold subprocessRun
    rw [hopt]
    rfl
  have hrem : pyRemove (fs.setFile (b ++ chars ".ll") irc) (b ++ chars ".ll") =
      .ok ((fs.setFile (b ++ chars ".ll") irc).removeFile (b ++ chars ".ll")) := by
    unfold pyRemove
    rw [FS.lookup_setFile_self]
  have hext2 : splitextL (pathJoin (expanduser env.home dir) (b ++ chars ".c")) =
      (pathJoin (expanduser env.home dir) b, chars ".c") := by
    rw [hcc]
    exact splitextL_pathJoin_good _ hb (by decide)
  have hnone2 : ((fs.setFile (b ++ chars ".ll") irc).removeFile (b ++ chars ".ll")).lookup
      (cPath env dir b) = none := by
    rw [FS.lookup_removeFile, if_neg (Ne.symm hllcsv),
      FS.lookup_setFile_ne _ _ _ (Ne.symm hllcsv)]
    exact hnone
  have hmerge := mergeBranch_missing (expanduser env.home dir) output_file
    (pathJoin (expanduser env.home dir) b)
    ((fs.setFile (b ++ chars ".ll") irc).removeFile (b ++ chars ".ll"))
    [[chars "clang", chars "-emit-llvm", chars "-S", fp], optArgv (b ++ chars ".c")]
    hnone2
  simp only [run_pass, hbn, hext, if_pos rfl, hsub1, afterFrontend, hsub2, hstrip,
    hrem, if_neg (show ¬ chars ".c" = chars ".rs" by decide), hext2]
  exact hmerge

/-! ### The full pipeline on a `.rs` file whose toolchain behaves -/

/-- The path to which the Rust branch of `run_pass` moves the report:
`<dir>/file-results/<b>.csv`, with `dir` not expanded. -/
def rsTarget (dir b : Str) : Str :=
  pathJoin (pathJoin dir (chars "file-results")) (b ++ chars ".csv")

theorem run_pass_rs_success (env : Env) (dir output_file fp cfArg b irc rep : Str)
    (fs : FS)
    (hb : goodBase b = true)
    (hbn : basenameL fp = b ++ chars ".rs")
    (hrustc : env.effects [chars "rustc", chars "--emit=llvm-ir", fp] =
      [(b ++ chars ".ll", irc)])
    (hopt : env.effects (optArgv (b ++ chars ".rs")) = [(b ++ chars ".csv", rep)])
    (hne2 : output_file ≠ b ++ chars ".csv")
    (hne3 : rsTarget dir b ≠ output_file)
    (hne4 : rsTarget dir b ≠ b ++ chars ".csv")
    (hdir : pathJoin dir (chars "file-results") ∈ fs.dirs)
    (hfree : fs.lookup (rsTarget dir b) = none) :
    run_pass env dir output_file fp cfArg fs =
      ⟨[[chars "rustc", chars "--emit=llvm-ir", fp], optArgv (b ++ chars ".rs")],
       [],
       ((pyAppend (((fs.setFile (b ++ chars ".ll") irc).setFile (b ++ chars ".csv") rep).removeFile
           (b ++ chars ".ll")) output_file rep).removeFile (b ++ chars ".csv")).setFile
         (rsTarget dir b) rep,
       none⟩ := by
  obtain ⟨hb0, hbc⟩ := goodBase_spec hb
  have hcc : chars ".rs" = '.' :: chars "rs" := rfl
  have hext : splitextL (b ++ chars ".rs") = (b, chars ".rs") := by
    rw [hcc]
    exact splitextL_good hb (by decide)
  have hstrip : stripL (b ++ chars ".rs") = b ++ chars ".rs" := by
    refine stripL_eq_self (fun c hc => ?_)
    rcases List.mem_append.mp hc with h1 | h1
    · exact (hbc c h1).2.2
    · have h2 : c = '.' ∨ c = 'r' ∨ c = 's' := by
        rw [show chars ".rs" = ['.', 'r', 's'] from rfl] at h1
        simpa using h1
      rcases h2 with h2 | h2 | h2 <;> subst h2 <;> decide
  have hlastll : (b ++ chars ".ll").getLast? = some 'l' := getLast?_append_ll b
  have hllcsv : b ++ chars ".ll" ≠ b ++ chars ".csv" :=
    ne_of_getLast?_ne (by rw [hlastll, getLast?_append_csv]; decide)
  have htl : (rsTarget dir b).getLast? = some 'v' := by
    unfold rsTarget
    rw [getLast?_pathJoin _ (fun h => hb0 (List.append_eq_nil.mp h).1),
      getLast?_append_csv]
  have hlltgt : b ++ chars ".ll" ≠ rsTarget dir b :=
    ne_of_getLast?_ne (by rw [hlastll, htl]; decide)
  have hsub1 : subprocessRun env [chars "rustc", chars "--emit=llvm-ir", fp] fs =
      fs.setFile (b ++ chars ".ll") irc := by
    unfold subprocessRun
    rw [hrustc]
    rfl
  have hsub2 : subprocessRun env (optArgv (b ++ chars ".rs"))
      (fs.setFile (b ++ chars ".ll") irc) =
      (fs.setFile (b ++ chars ".ll") irc).setFile (b ++ chars ".csv") rep := by
    unfold subprocessRun
    rw [hopt]
    rfl
  have hrem : pyRemove ((fs.setFile (b ++ chars ".ll") irc).setFile (b ++ chars ".csv") rep)
      (b ++ chars ".ll") =
      .ok (((fs.setFile (b ++ chars ".ll") irc).setFile (b ++ chars ".csv") rep).removeFile
        (b ++ chars ".ll")) := by
    unfold pyRemove
    rw [FS.lookup_setFile_ne _ _ _ hllcsv, FS.lookup_setFile_self]
  have hbnm : basenameL (b ++ chars ".csv") = b ++ chars ".csv" := by
    refine basenameL_of_noslash ?_
    intro c hc
    rcases List.mem_append.mp hc with h1 | h1
    · exact (hbc c h1).1
    · have h2 : c = '.' ∨ c = 'c' ∨ c = 's' ∨ c = 'v' := by
        rw [show chars ".csv" = ['.', 'c', 's', 'v'] from rfl] at h1
        simpa using h1
      rcases h2 with h2 | h2 | h2 | h2 <;> subst h2 <;> decide
  have hfs2src : (((fs.setFile (b ++ chars ".ll") irc).setFile (b ++ chars ".csv") rep).removeFile
      (b ++ chars ".ll")).lookup (b ++ chars ".csv") = some rep := by
    rw [FS.lookup_removeFile, if_neg (Ne.symm hllcsv), FS.lookup_setFile_self]
  have hfs2tgt : (((fs.setFile (b ++ chars ".ll") irc).setFile (b ++ chars ".csv") rep).removeFile
      (b ++ chars ".ll")).lookup (rsTarget dir b) = none := by
    rw [FS.lookup_removeFile, if_neg (Ne.symm hlltgt),
      FS.lookup_setFile_ne _ _ _ hne4, FS.lookup_setFile_ne _ _ _ (Ne.symm hlltgt)]
    exact hfree
  have hfs2dirs : pathJoin dir (chars "file-results") ∈
      (((fs.setFile (b ++ chars ".ll") irc).setFile (b ++ chars ".csv") rep).removeFile
        (b ++ chars ".ll")).dirs := by
    rw [FS.dirs_removeFile, FS.dirs_setFile, FS.dirs_setFile]
    exact hdir
  have hmerge := mergeBranch_success dir output_file b
    (((fs.setFile (b ++ chars ".ll") irc).setFile (b ++ chars ".csv") rep).removeFile
      (b ++ chars ".ll"))
    [[chars "rustc", chars "--emit=llvm-ir", fp], optArgv (b ++ chars ".rs")]
    hfs2src hfs2dirs (by rw [hbnm]; rfl) hfs2tgt hne3 (Ne.symm hne2)
  simp only [run_pass, hbn, hext,
    if_neg (show ¬ chars ".rs" = chars ".c" by decide),
    if_neg (show ¬ chars ".rs" = chars ".cpp" by decide),
    if_neg (show ¬ chars ".rs" = chars ".hs" by decide),
    if_pos rfl, hsub1, afterFrontend, hsub2, hstrip, hrem]
  exact hmerge

theorem run_pass_rs_success_state (env : Env) (dir output_file fp cfArg b irc rep : Str)
    (fs : FS)
    (hb : goodBase b = true)
    (hbn : basenameL fp = b ++ chars ".rs")
    (hrustc : env.effects [chars "rustc", chars "--emit=llvm-ir", fp] =
      [(b ++ chars ".ll", irc)])
    (hopt : env.effects (optArgv (b ++ chars ".rs")) = [(b ++ chars ".csv", rep)])
    (hne1 : output_file ≠ b ++ chars ".ll")
    (hne2 : output_file ≠ b ++ chars ".csv")
    (hne3 : rsTarget dir b ≠ output_file)
    (hne4 : rsTarget dir b ≠ b ++ chars ".csv")
    (hdir : pathJoin dir (chars "file-results") ∈ fs.dirs)
    (hfree : fs.lookup (rsTarget dir b) = none) :
    (run_pass env dir output_file fp cfArg fs).err = none ∧
    (run_pass env dir output_file fp cfArg fs).printed = [] ∧
    (run_pass env dir output_file fp cfArg fs).fs.lookup output_file =
      some ((fs.lookup output_file).getD [] ++ rep) ∧
    (run_pass env dir output_file fp cfArg fs).fs.lookup (rsTarget dir b) = some rep ∧
    (run_pass env dir output_file fp cfArg fs).fs.lookup (b ++ chars ".csv") = none ∧
    (run_pass env dir output_file fp cfArg fs).fs.lookup (b ++ chars ".ll") = none := by
  have hb0 : b ≠ [] := (goodBase_spec hb).1
  have hlastll : (b ++ chars ".ll").getLast? = some 'l' := getLast?_append_ll b
  have hllcsv : b ++ chars ".ll" ≠ b ++ chars ".csv" :=
    ne_of_getLast?_ne (by rw [hlastll, getLast?_append_csv]; decide)
  have htl : (rsTarget dir b).getLast? = some 'v' := by
    unfold rsTarget
    rw [getLast?_pathJoin _ (fun h => hb0 (List.append_eq_nil.mp h).1),
      getLast?_append_csv]
  have hlltgt : b ++ chars ".ll" ≠ rsTarget dir b :=
    ne_of_getLast?_ne (by rw [hlastll, htl]; decide)
  rw [run_pass_rs_success env dir output_file fp cfArg b irc rep fs hb hbn hrustc hopt
    hne2 hne3 hne4 hdir hfree]
  refine ⟨rfl, rfl, ?_, ?_, ?_, ?_⟩
  · rw [FS.lookup_setFile_ne _ _ _ (Ne.symm hne3), FS.lookup_removeFile, if_neg hne2]
    unfold pyAppend
    rw [FS.lookup_setFile_self, FS.lookup_removeFile, if_neg hne1,
      FS.lookup_setFile_ne _ _ _ hne2, FS.lookup_setFile_ne _ _ _ hne1]
  · exact FS.lookup_setFile_self _ _ _
  · rw [FS.lookup_setFile_ne _ _ _ (Ne.symm hne4), FS.lookup_removeFile, if_pos rfl]
  · rw [FS.lookup_setFile_ne _ _ _ hlltgt, FS.lookup_removeFile, if_neg hllcsv]
    unfold pyAppend
    rw [FS.lookup_setFile_ne _ _ _ (Ne.symm hne1), FS.lookup_removeFile, if_pos rfl]

/-! ### The IR artifact is gone on every exit path of the cleanup stage -/

theorem pyRemove_error_lookup {fs : FS} {p : Str} {e : PyErr}
    (h : pyRemove fs p = .error e) : fs.lookup p = none := by
  unfold pyRemove at h
  cases hl : fs.lookup p with
  | some c => rw [hl] at h; cases h
  | none => rfl

theorem pyRemove_ok_eq {fs fs2 : FS} {p : Str}
    (h : pyRemove fs p = .ok fs2) : fs2 = fs.removeFile p := by
  unfold pyRemove at h
  cases hl : fs.lookup p with
  | some c =>
    rw [hl] at h
    injection h with h2
    exact h2.symm
  | none => rw [hl] at h; cases h

theorem shutilMove_lookup_none (fs : FS) (src dst : Str) {fs2 : FS} {q : Str}
    (hmv : shutilMove fs src dst = .ok fs2)
    (h0 : fs.lookup q = none)
    (h2 : q ≠ pathJoin dst (basenameL src))
    (h3 : q ≠ dst) :
    fs2.lookup q = none := by
  unfold shutilMove at hmv
  by_cases hd : dst ∈ fs.dirs
  · rw [if_pos hd] at hmv
    cases hrd : fs.lookup (pathJoin dst (basenameL src)) with
    | some c =>
      simp only [hrd] at hmv
      exact Except.noConfusion hmv
    | none =>
      simp only [hrd] at hmv
      cases hsrc : fs.lookup src with
      | some c =>
        simp only [hsrc] at hmv
        injection hmv with h
        rw [← h, FS.lookup_setFile_ne _ _ _ h2, FS.lookup_removeFile]
        split
        · rfl
        · exact h0
      | none =>
        simp only [hsrc] at hmv
        exact Except.noConfusion hmv
  · rw [if_neg hd] at hmv
    cases hsrc : fs.lookup src with
    | some c =>
      simp only [hsrc] at hmv
      injection hmv with h
      rw [← h, FS.lookup_setFile_ne _ _ _ h3, FS.lookup_removeFile]
      split
      · rfl
      · exact h0
    | none =>
      simp only [hsrc] at hmv
      exact Except.noConfusion hmv

theorem mergeBranch_lookup_none (dir output_file bn : Str) (fs : FS)
    (calls : List (List Str)) {q : Str}
    (h0 : fs.lookup q = none)
    (h1 : q ≠ output_file)
    (h2 : q ≠ pathJoin (pathJoin dir (chars "file-results"))
      (basenameL (bn ++ chars ".csv")))
    (h3 : q ≠ pathJoin dir (chars "file-results")) :
    (mergeBranch dir output_file bn fs calls).fs.lookup q = none := by
  unfold mergeBranch
  cases hopen : pyOpenRead fs (bn ++ chars ".csv") with
  | error e => exact h0
  | ok content =>
    have hl1 : (pyAppend fs output_file content).lookup q = none := by
      unfold pyAppend
      rw [FS.lookup_setFile_ne _ _ _ h1]
      exact h0
    cases hmv : shutilMove (pyAppend fs output_file content) (bn ++ chars ".csv")
        (pathJoin dir (chars "file-results")) with
    | error e => simp only [hmv]; exact hl1
    | ok fs2 =>
      simp only [hmv]
      exact shutilMove_lookup_none _ _ _ hmv hl1 h2 h3

theorem afterFrontend_ir_removed (env : Env) (dir output_file : Str)
    (file_name file_ext : Str) (calls : List (List Str)) (fs : FS)
    (hout : output_file ≠ (splitextL (stripL file_name)).1 ++ chars ".ll") :
    (afterFrontend env dir output_file file_name file_ext calls fs).fs.lookup
      ((splitextL (stripL file_name)).1 ++ chars ".ll") = none := by
  have hlast : ((splitextL (stripL file_name)).1 ++ chars ".ll").getLast? = some 'l' :=
    getLast?_append_ll _
  have hfr : (chars "file-results").getLast? = some 's' := by decide
  unfold afterFrontend
  cases hrem : pyRemove (subprocessRun env (optArgv file_name) fs)
      ((splitextL (stripL file_name)).1 ++ chars ".ll") with
  | error e =>
    simp only [hrem]
    exact pyRemove_error_lookup hrem
  | ok fs2 =>
    simp only [hrem]
    have h0 : fs2.lookup ((splitextL (stripL file_name)).1 ++ chars ".ll") = none := by
      rw [pyRemove_ok_eq hrem, FS.lookup_removeFile, if_pos rfl]
    have hne_tgt : ∀ dd bb : Str,
        (splitextL (stripL file_name)).1 ++ chars ".ll" ≠
        pathJoin (pathJoin dd (chars "file-results")) (basenameL (bb ++ chars ".csv")) := by
      intro dd bb
      refine ne_of_getLast?_ne ?_
      rw [hlast, getLast?_pathJoin _
        (ne_nil_of_getLast?_eq_some (getLast?_basenameL_append_csv bb)),
        getLast?_basenameL_append_csv]
      decide
    have hne_cf : ∀ dd : Str,
        (splitextL (stripL file_name)).1 ++ chars ".ll" ≠
        pathJoin dd (chars "file-results") := by
      intro dd
      refine ne_of_getLast?_ne ?_
      rw [hlast, getLast?_pathJoin _ (by decide), hfr]
      decide
    by_cases hrs : file_ext = chars ".rs"
    · rw [if_pos hrs]
      exact mergeBranch_lookup_none _ _ _ _ _ h0 (Ne.symm hout) (hne_tgt _ _) (hne_cf _)
    · rw [if_neg hrs]
      exact mergeBranch_lookup_none _ _ _ _ _ h0 (Ne.symm hout) (hne_tgt _ _) (hne_cf _)

/-- The extensions `run_pass` dispatches on (source lines 19-47). -/
def supportedExts : List Str :=
  [chars ".c", chars ".cpp", chars ".hs", chars ".rs", chars ".java",
   chars ".swift", chars ".scala", chars ".m", chars ".rb"]

/-- The path of the IR artifact that the cleanup of `run_pass` removes
(source line 64): the stripped stem of the basename plus `.ll`, relative to
the working directory. -/
def irPath (file_path : Str) : Str :=
  (splitextL (stripL (basenameL file_path))).1 ++ chars ".ll"

/-- The `.s` artifact of the Scala branch (source lines 40-41). -/
def scalaS (file_path : Str) : Str :=
  (splitextL (basenameL file_path)).1 ++ chars ".s"

/-- The filesystem after the two Scala frontend invocations (source
lines 39-40). -/
def scalaFrontendFS (env : Env) (file_path : Str) (fs : FS) : FS :=
  subprocessRun env [chars "llvm-dis", (splitextL (basenameL file_path)).1 ++ chars ".s"]
    (subprocessRun env [chars "scalac", chars "-Xassem-extdirs", chars ".", file_path] fs)

/-- C4: on every exit path of the cleanup-and-merge stage of a task for a
supported extension — success, analysis failure, missing report, failed
cleanup — the IR artifact is absent from the final filesystem.  The Scala
hypothesis records the external disassembler's contract: it only produces
the `.ll` when the `.s` it reads exists (when the `.s` is missing the task
raises inside the frontend dispatch, before the cleanup stage begins). -/
theorem C4_ir_removed_on_every_exit (env : Env) (dir output_file file_path cfArg : Str)
    (fs : FS)
    (hsup : (splitextL (basenameL file_path)).2 ∈ supportedExts)
    (hout : output_file ≠ irPath file_path)
    (hscala : (splitextL (basenameL file_path)).2 = chars ".scala" →
      (scalaFrontendFS env file_path fs).lookup (scalaS file_path) = none →
      (scalaFrontendFS env file_path fs).lookup (irPath file_path) = none) :
    (run_pass env dir output_file file_path cfArg fs).fs.lookup (irPath file_path) = none := by
  unfold irPath at hout ⊢
  unfold scalaFrontendFS scalaS irPath at hscala
  simp only [supportedExts, List.mem_cons, List.not_mem_nil, or_false] at hsup
  rcases hsup with h | h | h | h | h | h | h | h | h
  · simp only [run_pass, h, if_pos rfl]
    exact afterFrontend_ir_removed env dir output_file (basenameL file_path) _ _ _ hout
  · simp only [run_pass, h,
      if_neg (show ¬ chars ".cpp" = chars ".c" by decide), if_pos rfl]
    exact afterFrontend_ir_removed env dir output_file (basenameL file_path) _ _ _ hout
  · simp only [run_pass, h,
      if_neg (show ¬ chars ".hs" = chars ".c" by decide),
      if_neg (show ¬ chars ".hs" = chars ".cpp" by decide), if_pos rfl]
    exact afterFrontend_ir_removed env dir output_file (basenameL file_path) _ _ _ hout
  · simp only [run_pass, h,
      if_neg (show ¬ chars ".rs" = chars ".c" by decide),
      if_neg (show ¬ chars ".rs" = chars ".cpp" by decide),
      if_neg (show ¬ chars ".rs" = chars ".hs" by decide), if_pos rfl]
    exact afterFrontend_ir_removed env dir output_file (basenameL file_path) _ _ _ hout
  · simp only [run_pass, h,
      if_neg (show ¬ chars ".java" = chars ".c" by decide),
      if_neg (show ¬ chars ".java" = chars ".cpp" by decide),
      if_neg (show ¬ chars ".java" = chars ".hs" by decide),
      if_neg (show ¬ chars ".java" = chars ".rs" by decide), if_pos rfl]
    exact afterFrontend_ir_removed env dir output_file (basenameL file_path) _ _ _ hout
  · simp only [run_pass, h,
      if_neg (show ¬ chars ".swift" = chars ".c" by decide),
      if_neg (show ¬ chars ".swift" = chars ".cpp" by decide),
      if_neg (show ¬ chars ".swift" = chars ".hs" by decide),
      if_neg (show ¬ chars ".swift" = chars ".rs" by decide),
      if_neg (show ¬ chars ".swift" = chars ".java" by decide), if_pos rfl]
    exact afterFrontend_ir_removed env dir output_file (basenameL file_path) _ _ _ hout
  · simp only [run_pass, h,
      if_neg (show ¬ chars ".scala" = chars ".c" by decide),
      if_neg (show ¬ chars ".scala" = chars ".cpp" by decide),
      if_neg (show ¬ chars ".scala" = chars ".hs" by decide),
      if_neg (show ¬ chars ".scala" = chars ".rs" by decide),
      if_neg (show ¬ chars ".scala" = chars ".java" by decide),
      if_neg (show ¬ chars ".scala" = chars ".swift" by decide), if_pos rfl]
    cases hrem : pyRemove
        (subprocessRun env [chars "llvm-dis", (splitextL (basenameL file_path)).1 ++ chars ".s"]
          (subprocessRun env [chars "scalac", chars "-Xassem-extdirs", chars ".", file_path] fs))
        ((splitextL (basenameL file_path)).1 ++ chars ".s") with
    | error e =>
      simp only [hrem]
      exact hscala h (pyRemove_error_lookup hrem)
    | ok fs3 =>
      simp only [hrem]
      exact afterFrontend_ir_removed env dir output_file (basenameL file_path) _ _ _ hout
  · simp only [run_pass, h,
      if_neg (show ¬ chars ".m" = chars ".c" by decide),
      if_neg (show ¬ chars ".m" = chars ".cpp" by decide),
      if_neg (show ¬ chars ".m" = chars ".hs" by decide),
      if_neg (show ¬ chars ".m" = chars ".rs" by decide),
      if_neg (show ¬ chars ".m" = chars ".java" by decide),
      if_neg (show ¬ chars ".m" = chars ".swift" by decide),
      if_neg (show ¬ chars ".m" = chars ".scala" by decide), if_pos rfl]
    exact afterFrontend_ir_removed env dir output_file (basenameL file_path) _ _ _ hout
  · simp only [run_pass, h,
      if_neg (show ¬ chars ".rb" = chars ".c" by decide),
      if_neg (show ¬ chars ".rb" = chars ".cpp" by decide),
      if_neg (show ¬ chars ".rb" = chars ".hs" by decide),
      if_neg (show ¬ chars ".rb" = chars ".rs" by decide),
      if_neg (show ¬ chars ".rb" = chars ".java" by decide),
      if_neg (show ¬ chars ".rb" = chars ".swift" by decide),
      if_neg (show ¬ chars ".rb" = chars ".scala" by decide),
      if_neg (show ¬ chars ".rb" = chars ".m" by decide), if_pos rfl]
    exact afterFrontend_ir_removed env dir output_file (basenameL file_path) _ _ _ hout

/-! ### Driver-level lemmas -/

theorem mainRun_valid (env : Env) (d : Str) (langs : Option (List Str)) (fs : FS)
    (h : expanduser env.home d ∈ fs.dirs) :
    mainRun env (some d) langs fs =
      ⟨[doneLine (pathJoin (expanduser env.home d) (chars "results.csv"))
          (pathJoin (expanduser env.home d) (chars "file-results"))],
       scheduledTasks (pyMakedirs fs (pathJoin (expanduser env.home d) (chars "file-results")))
         (expanduser env.home d) langs,
       pathJoin (expanduser env.home d) (chars "results.csv"),
       pathJoin (expanduser env.home d) (chars "file-results"),
       runTasks env (expanduser env.home d)
         (pathJoin (expanduser env.home d) (chars "results.csv"))
         (pathJoin (expanduser env.home d) (chars "file-results"))
         (scheduledTasks (pyMakedirs fs (pathJoin (expanduser env.home d) (chars "file-results")))
           (expanduser env.home d) langs)
         (pyMakedirs fs (pathJoin (expanduser env.home d) (chars "file-results"))),
       .exited 0⟩ := by
  simp only [mainRun, if_pos h]

theorem scheduledTasks_of_unresolved (fs : FS) (root : Str) (t : Str) (ts : List Str)
    (h : ∀ x ∈ t :: ts, langToExt (lowerL x) = none) :
    scheduledTasks fs root (some (t :: ts)) = [] := by
  have hgen : ∀ l : List Str, (∀ x ∈ l, langToExt (lowerL x) = none) →
      l.flatMap (fun lang =>
        match langToExt (lowerL lang) with
        | none => []
        | some ext =>
          (walkFiles fs root).filter
            (fun p => (splitextL (basenameL p)).2 == '.' :: ext)) = [] := by
    intro l hl
    induction l with
    | nil => rfl
    | cons a s ih =>
      simp only [List.flatMap_cons, hl a (List.mem_cons_self a s), List.nil_append]
      exact ih (fun x hx => hl x (List.mem_cons_of_mem a hx))
  simp only [scheduledTasks]
  exact hgen (t :: ts) h

/-! ### The unsynchronized aggregate append, at write-syscall granularity

The merge step of `run_pass` appends the report with
`shutil.copyfileobj(src, dst)` on a file opened in mode `"a"`.  No lock is
acquired anywhere in the program, and `copyfileobj` copies in chunks of
`COPY_BUFSIZE` bytes, each chunk one `write` on the `O_APPEND` descriptor.
Under the process pool, the chunk writes of two concurrent tasks may be
scheduled in any interleaved order. -/

/-- The POSIX default of `shutil.COPY_BUFSIZE`: 64 KiB. -/
def COPY_BUFSIZE : Nat := 65536

/-- The chunk writes issued by `shutil.copyfileobj` for one report. -/
def copyfileobjWrites (s : Str) : List Str :=
  if _h : s = [] then []
  else s.take COPY_BUFSIZE :: copyfileobjWrites (s.drop COPY_BUFSIZE)
termination_by s.length
decreasing_by
  simp only [List.length_drop]
  have h1 : 0 < s.length := List.length_pos.mpr _h
  have h2 : 0 < COPY_BUFSIZE := by decide
  omega

/-- Proposition `Interleaving w a b`: `w` is an order in which a scheduler can execute
the atomic steps of `a` and of `b`, keeping each list's internal order. -/
inductive Interleaving {α : Type} : List α → List α → List α → Prop where
  | nil : Interleaving [] [] []
  | left {w a b : List α} (x : α) : Interleaving w a b → Interleaving (x :: w) (x :: a) b
  | right {w a b : List α} (x : α) : Interleaving w a b → Interleaving (x :: w) a (x :: b)

/-- A report slightly larger than one copy chunk, all marker `c`, whose
single line ends in a newline. -/
def bigReport (c : Char) : Str := List.replicate COPY_BUFSIZE c ++ [c, '\n']

theorem copyfileobjWrites_bigReport (c : Char) :
    copyfileobjWrites (bigReport c) = [List.replicate COPY_BUFSIZE c, [c, '\n']] := by
  unfold bigReport
  rw [copyfileobjWrites]
  rw [dif_neg (by
    intro h
    exact List.cons_ne_nil c ['\n'] (List.append_eq_nil.mp h).2)]
  rw [List.take_left' (List.length_replicate COPY_BUFSIZE c),
    List.drop_left' (List.length_replicate COPY_BUFSIZE c)]
  rw [copyfileobjWrites]
  rw [dif_neg (List.cons_ne_nil c ['\n'])]
  rw [List.take_of_length_le (by simp [COPY_BUFSIZE]),
    List.drop_eq_nil_of_le (by simp [COPY_BUFSIZE])]
  rw [copyfileobjWrites, dif_pos rfl]

theorem replicate_buf_ne_nil (c : Char) : List.replicate COPY_BUFSIZE c ≠ [] := by
  intro h
  have h1 := congrArg List.length h
  rw [List.length_replicate, List.length_nil] at h1
  exact absurd h1 (by decide)

theorem replicate_buf_head? (c : Char) :
    (List.replicate COPY_BUFSIZE c).head? = some c := by
  rw [show COPY_BUFSIZE = 65535 + 1 from by decide, List.replicate_succ]
  rfl

/-- C1: the program holds no lock around the aggregate append; the chunked
writes of two concurrent merges can be interleaved by the scheduler so that
the aggregate's first line mixes the two reports, and the resulting content
is neither serialized order of the two reports.  This refutes the claimed
serialization: two reports of `COPY_BUFSIZE + 2` bytes interleave mid-line. -/
theorem C1_chunked_append_interleaves_midline :
    ∃ w : List Str,
      Interleaving w (copyfileobjWrites (bigReport 'a')) (copyfileobjWrites (bigReport 'b')) ∧
      'a' ∈ w.flatten.takeWhile (fun c => c != '\n') ∧
      'b' ∈ w.flatten.takeWhile (fun c => c != '\n') ∧
      w.flatten ≠ bigReport 'a' ++ bigReport 'b' ∧
      w.flatten ≠ bigReport 'b' ++ bigReport 'a' := by
  refine ⟨[List.replicate COPY_BUFSIZE 'a', List.replicate COPY_BUFSIZE 'b',
    ['a', '\n'], ['b', '\n']], ?_, ?_, ?_, ?_, ?_⟩
  · rw [copyfileobjWrites_bigReport 'a', copyfileobjWrites_bigReport 'b']
    exact .left _ (.right _ (.left _ (.right _ .nil)))
  · have hjoin : ([List.replicate COPY_BUFSIZE 'a', List.replicate COPY_BUFSIZE 'b',
        ['a', '\n'], ['b', '\n']] : List Str).flatten =
        (List.replicate COPY_BUFSIZE 'a' ++ List.replicate COPY_BUFSIZE 'b' ++ ['a']) ++
          '\n' :: ['b', '\n'] := by
      simp
    rw [hjoin, takeWhile_append_stop '\n' _ ?hall (by decide)]
    case hall =>
      intro c hc
      rcases List.mem_append.mp hc with h1 | h1
      · rcases List.mem_append.mp h1 with h2 | h2
        · rw [List.eq_of_mem_replicate h2]; decide
        · rw [List.eq_of_mem_replicate h2]; decide
      · rw [show c = 'a' by simpa using h1]; decide
    exact List.mem_append_right _ (by simp)
  · have hjoin : ([List.replicate COPY_BUFSIZE 'a', List.replicate COPY_BUFSIZE 'b',
        ['a', '\n'], ['b', '\n']] : List Str).flatten =
        (List.replicate COPY_BUFSIZE 'a' ++ List.replicate COPY_BUFSIZE 'b' ++ ['a']) ++
          '\n' :: ['b', '\n'] := by
      simp
    rw [hjoin, takeWhile_append_stop '\n' _ ?hall2 (by decide)]
    case hall2 =>
      intro c hc
      rcases List.mem_append.mp hc with h1 | h1
      · rcases List.mem_append.mp h1 with h2 | h2
        · rw [List.eq_of_mem_replicate h2]; decide
        · rw [List.eq_of_mem_replicate h2]; decide
      · rw [show c = 'a' by simpa using h1]; decide
    exact List.mem_append_left _ (List.mem_append_right _
      (List.mem_replicate.mpr ⟨by decide, rfl⟩))
  · intro e
    have h1 := congrArg (fun l : Str => (l.drop COPY_BUFSIZE).head?) e
    simp only at h1
    have hjoin : ([List.replicate COPY_BUFSIZE 'a', List.replicate COPY_BUFSIZE 'b',
        ['a', '\n'], ['b', '\n']] : List Str).flatten =
        List.replicate COPY_BUFSIZE 'a' ++
          (List.replicate COPY_BUFSIZE 'b' ++ ['a', '\n', 'b', '\n']) := by
      simp
    have hab : bigReport 'a' ++ bigReport 'b' =
        List.replicate COPY_BUFSIZE 'a' ++ ('a' :: '\n' :: bigReport 'b') := by
      simp [bigReport]
    rw [hjoin, hab, List.drop_left' (List.length_replicate COPY_BUFSIZE 'a'),
      List.drop_left' (List.length_replicate COPY_BUFSIZE 'a'),
      head?_append_left _ (replicate_buf_ne_nil 'b'), replicate_buf_head?] at h1
    cases h1
  · intro e
    have h1 := congrArg (fun l : Str => l.head?) e
    simp only at h1
    have hjoin2 : ([List.replicate COPY_BUFSIZE 'a', List.replicate COPY_BUFSIZE 'b',
        ['a', '\n'], ['b', '\n']] : List Str).flatten =
        List.replicate COPY_BUFSIZE 'a' ++
          (List.replicate COPY_BUFSIZE 'b' ++ ['a', '\n', 'b', '\n']) := by
      simp
    have hba : bigReport 'b' ++ bigReport 'a' =
        List.replicate COPY_BUFSIZE 'b' ++ ('b' :: '\n' :: bigReport 'a') := by
      simp [bigReport]
    rw [hjoin2, hba, head?_append_left _ (replicate_buf_ne_nil 'a'), replicate_buf_head?,
      head?_append_left _ (replicate_buf_ne_nil 'b'), replicate_buf_head?] at h1
    cases h1

/-! ### Concrete scenarios -/

/-- An environment in which every external invocation writes nothing: the
frontends fail to produce any artifact. -/
def envNoTools : Env := ⟨chars "/h", fun _ => []⟩

/-- An environment in which `clang` on `/r/a.c` produces the IR `a.ll` in the
working directory and the `opt` pass produces the report `/r/a.csv`. -/
def envCOk : Env := ⟨chars "/h", fun argv =>
  if argv = [chars "clang", chars "-emit-llvm", chars "-S", chars "/r/a.c"] then
    [(chars "a.ll", chars "ir")]
  else if argv = optArgv (chars "a.c") then
    [(chars "/r/a.csv", chars "1,2\n")]
  else []⟩

/-- An environment in which `clang` produces the IR but `opt` writes no
report. -/
def envCNoReport : Env := ⟨chars "/h", fun argv =>
  if argv = [chars "clang", chars "-emit-llvm", chars "-S", chars "/r/a.c"] then
    [(chars "a.ll", chars "ir")]
  else []⟩

/-- An environment in which `rustc` on `/r/b.rs` produces `b.ll` and the
`opt` pass writes the report `b.csv`, both in the working directory. -/
def envRsOk : Env := ⟨chars "/h", fun argv =>
  if argv = [chars "rustc", chars "--emit=llvm-ir", chars "/r/b.rs"] then
    [(chars "b.ll", chars "ir")]
  else if argv = optArgv (chars "b.rs") then
    [(chars "b.csv", chars "3,4\n")]
  else []⟩

/-- A root `/r` containing one C source file, with `file-results` already
bootstrapped. -/
def fsOneC : FS :=
  ⟨[(chars "/r/a.c", chars "int main")], [chars "/r", chars "/r/file-results"]⟩

/-- A root `/r` containing one Rust source file, with `file-results` already
bootstrapped. -/
def fsOneRs : FS :=
  ⟨[(chars "/r/b.rs", chars "fn main")], [chars "/r", chars "/r/file-results"]⟩

/-- A fresh root `/r` containing one C source file, before any bootstrap. -/
def fsRoot : FS := ⟨[(chars "/r/a.c", chars "x")], [chars "/r"]⟩

/-- A root `/r` as left by a previous run: source file, bootstrapped
`file-results`, and an aggregate with prior content. -/
def fsReRun : FS :=
  ⟨[(chars "/r/a.c", chars "x"), (chars "/r/results.csv", chars "old\n")],
   [chars "/r", chars "/r/file-results"]⟩

/-- Substring test: does `pat` occur contiguously inside the second list? -/
def hasSub (pat : Str) : Str → Bool
  | [] => pat.isEmpty
  | c :: t => pat.isPrefixOf (c :: t) || hasSub pat t

/-! ### Claim theorems -/

/-- C2: on a source file whose frontend fails (the `clang` invocation writes
no IR), the pipeline does not halt before the analysis stage: `opt` is still
invoked on the missing IR, and the task then dies at `os.remove("a.ll")` with
`FileNotFoundError`, so the cleanup-and-merge never appends anything to the
aggregate.  This contradicts the claim that the analysis tool is not invoked
and that the Janitor still runs. -/
theorem C2_frontend_failure_not_contained :
    (run_pass envNoTools (chars "/r") (chars "/r/results.csv") (chars "/r/a.c")
      (chars "/r/file-results") fsOneC).calls =
      [[chars "clang", chars "-emit-llvm", chars "-S", chars "/r/a.c"],
       optArgv (chars "a.c")] ∧
    (run_pass envNoTools (chars "/r") (chars "/r/results.csv") (chars "/r/a.c")
      (chars "/r/file-results") fsOneC).err =
      some (.fileNotFoundError (chars "a.ll")) ∧
    (run_pass envNoTools (chars "/r") (chars "/r/results.csv") (chars "/r/a.c")
      (chars "/r/file-results") fsOneC).fs.lookup (chars "/r/results.csv") = none := by
  decide

/-- C3 counterexample: with the report present, the janitor appends it and
then moves it into `file-results` — the report artifact's bytes persist at
`/r/file-results/a.csv`, it is not deleted; with the report absent, the
worker raises `FileNotFoundError` and prints nothing (no "missing result"
report, the task fails). -/
theorem C3_counterexample :
    (run_pass envCOk (chars "/r") (chars "/r/results.csv") (chars "/r/a.c")
      (chars "/r/file-results") fsOneC).err = none ∧
    (run_pass envCOk (chars "/r") (chars "/r/results.csv") (chars "/r/a.c")
      (chars "/r/file-results") fsOneC).fs.lookup (chars "/r/file-results/a.csv") =
      some (chars "1,2\n") ∧
    (run_pass envCNoReport (chars "/r") (chars "/r/results.csv") (chars "/r/a.c")
      (chars "/r/file-results") fsOneC).err =
      some (.fileNotFoundError (chars "/r/a.csv")) ∧
    (run_pass envCNoReport (chars "/r") (chars "/r/results.csv") (chars "/r/a.c")
      (chars "/r/file-results") fsOneC).printed = [] := by
  decide

/-- C3 (amended): in the Janitor stage, if the report artifact exists its
full contents are appended to the aggregate and the artifact is then moved
into `<dir>/file-results` (not deleted); if it is absent the report open
raises `FileNotFoundError` with no message, silently failing that worker
task (the run continues because the pool discards task exceptions). -/
theorem C3_janitor_merge_amended :
    (∀ (env : Env) (dir output_file fp cfArg b irc rep : Str) (fs : FS),
      goodBase b = true →
      basenameL fp = b ++ chars ".c" →
      env.effects [chars "clang", chars "-emit-llvm", chars "-S", fp] =
        [(b ++ chars ".ll", irc)] →
      env.effects (optArgv (b ++ chars ".c")) = [(cPath env dir b, rep)] →
      output_file ≠ b ++ chars ".ll" →
      output_file ≠ cPath env dir b →
      cTarget env dir b ≠ output_file →
      cTarget env dir b ≠ cPath env dir b →
      pathJoin (expanduser env.home dir) (chars "file-results") ∈ fs.dirs →
      fs.lookup (cTarget env dir b) = none →
      (run_pass env dir output_file fp cfArg fs).err = none ∧
      (run_pass env dir output_file fp cfArg fs).fs.lookup output_file =
        some ((fs.lookup output_file).getD [] ++ rep) ∧
      (run_pass env dir output_file fp cfArg fs).fs.lookup (cTarget env dir b) = some rep ∧
      (run_pass env dir output_file fp cfArg fs).fs.lookup (cPath env dir b) = none) ∧
    (∀ (env : Env) (dir output_file fp cfArg b irc : Str) (fs : FS),
      goodBase b = true →
      basenameL fp = b ++ chars ".c" →
      env.effects [chars "clang", chars "-emit-llvm", chars "-S", fp] =
        [(b ++ chars ".ll", irc)] →
      env.effects (optArgv (b ++ chars ".c")) = [] →
      fs.lookup (cPath env dir b) = none →
      (run_pass env dir output_file fp cfArg fs).err =
        some (.fileNotFoundError (cPath env dir b)) ∧
      (run_pass env dir output_file fp cfArg fs).printed = []) := by
  constructor
  · intro env dir output_file fp cfArg b irc rep fs hb hbn hclang hopt hne1 hne2 hne3
      hne4 hdir hfree
    obtain ⟨h1, h2, h3, h4, h5, h6⟩ := run_pass_c_success_state env dir output_file fp
      cfArg b irc rep fs hb hbn hclang hopt hne1 hne2 hne3 hne4 hdir hfree
    exact ⟨h1, h3, h4, h5⟩
  · intro env dir output_file fp cfArg b irc fs hb hbn hclang hopt hnone
    rw [run_pass_c_noreport env dir output_file fp cfArg b irc fs hb hbn hclang hopt hnone]
    exact ⟨rfl, rfl⟩

/-- C3 witness: the amended theorem applied to the concrete scenarios. -/
theorem C3_janitor_merge_amended_witness :
    ((run_pass envCOk (chars "/r") (chars "/r/results.csv") (chars "/r/a.c")
      (chars "/r/file-results") fsOneC).err = none ∧
    (run_pass envCOk (chars "/r") (chars "/r/results.csv") (chars "/r/a.c")
      (chars "/r/file-results") fsOneC).fs.lookup (chars "/r/results.csv") =
      some ((fsOneC.lookup (chars "/r/results.csv")).getD [] ++ chars "1,2\n") ∧
    (run_pass envCOk (chars "/r") (chars "/r/results.csv") (chars "/r/a.c")
      (chars "/r/file-results") fsOneC).fs.lookup
        (cTarget envCOk (chars "/r") (chars "a")) = some (chars "1,2\n") ∧
    (run_pass envCOk (chars "/r") (chars "/r/results.csv") (chars "/r/a.c")
      (chars "/r/file-results") fsOneC).fs.lookup
        (cPath envCOk (chars "/r") (chars "a")) = none) ∧
    ((run_pass envCNoReport (chars "/r") (chars "/r/results.csv") (chars "/r/a.c")
      (chars "/r/file-results") fsOneC).err =
      some (.fileNotFoundError (cPath envCNoReport (chars "/r") (chars "a"))) ∧
    (run_pass envCNoReport (chars "/r") (chars "/r/results.csv") (chars "/r/a.c")
      (chars "/r/file-results") fsOneC).printed = []) :=
  ⟨C3_janitor_merge_amended.1 envCOk (chars "/r") (chars "/r/results.csv")
      (chars "/r/a.c") (chars "/r/file-results") (chars "a") (chars "ir")
      (chars "1,2\n") fsOneC (by decide) (by decide) (by decide) (by decide)
      (by decide) (by decide) (by decide) (by decide) (by decide) (by decide),
   C3_janitor_merge_amended.2 envCNoReport (chars "/r") (chars "/r/results.csv")
      (chars "/r/a.c") (chars "/r/file-results") (chars "a") (chars "ir") fsOneC
      (by decide) (by decide) (by decide) (by decide) (by decide)⟩

/-- C4 witness: the cleanup theorem applied to a concrete task whose
frontend fails — the IR path is absent at exit even on this failure path. -/
theorem C4_ir_removed_on_every_exit_witness :
    (run_pass envNoTools (chars "/r") (chars "/r/results.csv") (chars "/r/a.c")
      (chars "/r/file-results") fsOneC).fs.lookup (irPath (chars "/r/a.c")) = none :=
  C4_ir_removed_on_every_exit envNoTools (chars "/r") (chars "/r/results.csv")
    (chars "/r/a.c") (chars "/r/file-results") fsOneC (by decide) (by decide)
    (fun h => absurd h (by decide))

/-- C5 counterexample: a run over a root with one valid C file puts the
aggregate entry into `<root>/results.csv`, and neither a file nor a
directory under `<root>/c-results` exists afterwards — there is no
per-language aggregate under `<root>/<language>-results/`. -/
theorem C5_counterexample :
    (mainRun envCOk (some (chars "/r")) none fsRoot).fs.lookup
      (chars "/r/results.csv") = some (chars "1,2\n") ∧
    (mainRun envCOk (some (chars "/r")) none fsRoot).fs.files.all
      (fun e => !((chars "/r/c-results").isPrefixOf e.1)) = true ∧
    ¬ chars "/r/c-results" ∈ (mainRun envCOk (some (chars "/r")) none fsRoot).fs.dirs := by
  decide

/-- C5 (amended): results are aggregated into a single shared append-only
file `<root>/results.csv`, common to all languages; the startup bootstrap
creates no file (only the `file-results` directory), and the aggregate comes
into existence at the first successful merge. -/
theorem C5_single_lazy_aggregate :
    (∀ (env : Env) (d : Str) (langs : Option (List Str)) (fs : FS),
      expanduser env.home d ∈ fs.dirs →
      (mainRun env (some d) langs fs).outputFile =
        pathJoin (expanduser env.home d) (chars "results.csv")) ∧
    (∀ (fs : FS) (p q : Str), fs.lookup q = none → (pyMakedirs fs p).lookup q = none) ∧
    (∀ (env : Env) (dir output_file fp cfArg b irc rep : Str) (fs : FS),
      goodBase b = true →
      basenameL fp = b ++ chars ".c" →
      env.effects [chars "clang", chars "-emit-llvm", chars "-S", fp] =
        [(b ++ chars ".ll", irc)] →
      env.effects (optArgv (b ++ chars ".c")) = [(cPath env dir b, rep)] →
      output_file ≠ b ++ chars ".ll" →
      output_file ≠ cPath env dir b →
      cTarget env dir b ≠ output_file →
      cTarget env dir b ≠ cPath env dir b →
      pathJoin (expanduser env.home dir) (chars "file-results") ∈ fs.dirs →
      fs.lookup (cTarget env dir b) = none →
      fs.lookup output_file = none →
      (run_pass env dir output_file fp cfArg fs).fs.lookup output_file = some rep) := by
  refine ⟨?_, ?_, ?_⟩
  · intro env d langs fs h
    rw [mainRun_valid env d langs fs h]
  · intro fs p q h
    rw [FS.lookup_pyMakedirs]
    exact h
  · intro env dir output_file fp cfArg b irc rep fs hb hbn hclang hopt hne1 hne2 hne3
      hne4 hdir hfree hagg
    obtain ⟨h1, h2, h3, h4, h5, h6⟩ := run_pass_c_success_state env dir output_file fp
      cfArg b irc rep fs hb hbn hclang hopt hne1 hne2 hne3 hne4 hdir hfree
    rw [hagg] at h3
    simpa using h3

/-- C5 witness: the amended theorem applied to a concrete run. -/
theorem C5_single_lazy_aggregate_witness :
    (mainRun envCOk (some (chars "/r")) none fsRoot).outputFile =
      pathJoin (expanduser envCOk.home (chars "/r")) (chars "results.csv") ∧
    (pyMakedirs fsRoot (chars "/r/file-results")).lookup (chars "/r/results.csv") = none ∧
    (run_pass envCOk (chars "/r") (chars "/r/results.csv") (chars "/r/a.c")
      (chars "/r/file-results") fsOneC).fs.lookup (chars "/r/results.csv") =
      some (chars "1,2\n") :=
  ⟨C5_single_lazy_aggregate.1 envCOk (chars "/r") none fsRoot (by decide),
   C5_single_lazy_aggregate.2.1 fsRoot (chars "/r/file-results")
     (chars "/r/results.csv") (by decide),
   C5_single_lazy_aggregate.2.2 envCOk (chars "/r") (chars "/r/results.csv")
     (chars "/r/a.c") (chars "/r/file-results") (chars "a") (chars "ir")
     (chars "1,2\n") fsOneC (by decide) (by decide) (by decide) (by decide)
     (by decide) (by decide) (by decide) (by decide) (by decide) (by decide)
     (by decide)⟩

/-- C6 counterexample: a run over a root with one file whose toolchain fails
(one file found, zero successes, one failure) prints exactly the fixed final
line, which contains no digit at all — so no total/success/failure counts —
and never mentions the failing file's name. -/
theorem C6_counterexample :
    (mainRun envNoTools (some (chars "/r")) none fsRoot).printed =
      [doneLine (chars "/r/results.csv") (chars "/r/file-results")] ∧
    (mainRun envNoTools (some (chars "/r")) none fsRoot).printed.all
      (fun l => l.all (fun c => !c.isDigit)) = true ∧
    (mainRun envNoTools (some (chars "/r")) none fsRoot).printed.all
      (fun l => !(hasSub (chars "a.c") l)) = true := by
  decide

/-- C6 (amended): at the end of every run over a valid root, the program
prints exactly one line, `Done. Check <output_file> and <csv_folder>.`,
regardless of how many files failed; it reports no counts and logs no
per-failure information. -/
theorem C6_final_line_amended (env : Env) (d : Str) (langs : Option (List Str))
    (fs : FS) (h : expanduser env.home d ∈ fs.dirs) :
    (mainRun env (some d) langs fs).printed =
      [doneLine (pathJoin (expanduser env.home d) (chars "results.csv"))
        (pathJoin (expanduser env.home d) (chars "file-results"))] := by
  rw [mainRun_valid env d langs fs h]

/-- C6 witness. -/
theorem C6_final_line_amended_witness :
    (mainRun envNoTools (some (chars "/r")) (some [chars "c"]) fsRoot).printed =
      [doneLine (pathJoin (expanduser envNoTools.home (chars "/r")) (chars "results.csv"))
        (pathJoin (expanduser envNoTools.home (chars "/r")) (chars "file-results"))] :=
  C6_final_line_amended envNoTools (chars "/r") (some [chars "c"]) fsRoot (by decide)

/-- C7 counterexample: with `--langs cobol` over a root containing a C file,
zero tasks are scheduled and the run exits cleanly, but nothing in the
program's output mentions the unresolved token — it is not reported. -/
theorem C7_counterexample :
    (mainRun envNoTools (some (chars "/r")) (some [chars "cobol"]) fsRoot).scheduled = [] ∧
    (mainRun envNoTools (some (chars "/r")) (some [chars "cobol"]) fsRoot).outcome =
      .exited 0 ∧
    (mainRun envNoTools (some (chars "/r")) (some [chars "cobol"]) fsRoot).printed.all
      (fun l => !(hasSub (chars "cobol") l)) = true := by
  decide

/-- C7 (amended): every `--langs` token that does not resolve to a supported
language is silently skipped (not reported): it contributes zero scheduled
files and never aborts the run; a non-empty `--langs` list containing only
unresolved tokens schedules zero tasks, leaves the filesystem untouched
apart from the directory bootstrap, and the run exits cleanly with code 0. -/
theorem C7_unresolved_tokens_amended (env : Env) (d : Str) (t : Str) (ts : List Str)
    (fs : FS)
    (hvalid : expanduser env.home d ∈ fs.dirs)
    (hall : ∀ x ∈ t :: ts, langToExt (lowerL x) = none) :
    (mainRun env (some d) (some (t :: ts)) fs).scheduled = [] ∧
    (mainRun env (some d) (some (t :: ts)) fs).outcome = .exited 0 ∧
    (mainRun env (some d) (some (t :: ts)) fs).fs =
      pyMakedirs fs (pathJoin (expanduser env.home d) (chars "file-results")) := by
  rw [mainRun_valid env d (some (t :: ts)) fs hvalid,
    scheduledTasks_of_unresolved _ _ _ _ hall]
  exact ⟨rfl, rfl, rfl⟩

/-- C7 witness. -/
theorem C7_unresolved_tokens_amended_witness :
    (mainRun envNoTools (some (chars "/r")) (some [chars "fortran"]) fsRoot).scheduled = [] ∧
    (mainRun envNoTools (some (chars "/r")) (some [chars "fortran"]) fsRoot).outcome =
      .exited 0 ∧
    (mainRun envNoTools (some (chars "/r")) (some [chars "fortran"]) fsRoot).fs =
      pyMakedirs fsRoot (pathJoin (expanduser envNoTools.home (chars "/r"))
        (chars "file-results")) :=
  C7_unresolved_tokens_amended envNoTools (chars "/r") (chars "fortran") [] fsRoot
    (by decide) (by decide)

/-- C8: re-running against an already-bootstrapped root does not fail and is
additive: `os.makedirs(..., exist_ok=True)` is the identity when the
directory exists, a run over a valid root always ends with exit code 0, and
a successful merge appends the new report after the aggregate's existing
content instead of overwriting it. -/
theorem C8_rerun_idempotent_additive :
    (∀ (fs : FS) (p : Str), p ∈ fs.dirs → pyMakedirs fs p = fs) ∧
    (∀ (env : Env) (d : Str) (langs : Option (List Str)) (fs : FS),
      expanduser env.home d ∈ fs.dirs →
      (mainRun env (some d) langs fs).outcome = .exited 0) ∧
    (∀ (env : Env) (dir output_file fp cfArg b irc rep s : Str) (fs : FS),
      goodBase b = true →
      basenameL fp = b ++ chars ".c" →
      env.effects [chars "clang", chars "-emit-llvm", chars "-S", fp] =
        [(b ++ chars ".ll", irc)] →
      env.effects (optArgv (b ++ chars ".c")) = [(cPath env dir b, rep)] →
      output_file ≠ b ++ chars ".ll" →
      output_file ≠ cPath env dir b →
      cTarget env dir b ≠ output_file →
      cTarget env dir b ≠ cPath env dir b →
      pathJoin (expanduser env.home dir) (chars "file-results") ∈ fs.dirs →
      fs.lookup (cTarget env dir b) = none →
      fs.lookup output_file = some s →
      (run_pass env dir output_file fp cfArg fs).fs.lookup output_file =
        some (s ++ rep)) := by
  refine ⟨?_, ?_, ?_⟩
  · intro fs p h
    exact pyMakedirs_of_mem fs h
  · intro env d langs fs h
    rw [mainRun_valid env d langs fs h]
  · intro env dir output_file fp cfArg b irc rep s fs hb hbn hclang hopt hne1 hne2 hne3
      hne4 hdir hfree hagg
    obtain ⟨h1, h2, h3, h4, h5, h6⟩ := run_pass_c_success_state env dir output_file fp
      cfArg b irc rep fs hb hbn hclang hopt hne1 hne2 hne3 hne4 hdir hfree
    rw [hagg] at h3
    exact h3

/-- C8 witness: a re-run over a root left by a previous run, with the
aggregate already holding `old\n`, extends it to `old\n1,2\n`. -/
theorem C8_rerun_idempotent_additive_witness :
    pyMakedirs fsReRun (chars "/r/file-results") = fsReRun ∧
    (mainRun envCOk (some (chars "/r")) none fsReRun).outcome = .exited 0 ∧
    (run_pass envCOk (chars "/r") (chars "/r/results.csv") (chars "/r/a.c")
      (chars "/r/file-results") fsReRun).fs.lookup (chars "/r/results.csv") =
      some (chars "old\n" ++ chars "1,2\n") :=
  ⟨C8_rerun_idempotent_additive.1 fsReRun (chars "/r/file-results") (by decide),
   C8_rerun_idempotent_additive.2.1 envCOk (chars "/r") none fsReRun (by decide),
   C8_rerun_idempotent_additive.2.2 envCOk (chars "/r") (chars "/r/results.csv")
     (chars "/r/a.c") (chars "/r/file-results") (chars "a") (chars "ir")
     (chars "1,2\n") (chars "old\n") fsReRun (by decide) (by decide) (by decide)
     (by decide) (by decide) (by decide) (by decide) (by decide) (by decide)
     (by decide) (by decide)⟩

/-- C9: invoked without `--dir`, the driver calls
`os.path.expanduser(None)` before any validity check and crashes with an
unhandled `TypeError`, printing nothing — it does not take the graceful
invalid-root path that prints a message and exits with code 1. -/
theorem C9_missing_dir_crashes_typeerror (env : Env) (langs : Option (List Str))
    (fs : FS) :
    (mainRun env none langs fs).outcome = .crashed .typeError ∧
    (mainRun env none langs fs).printed = [] ∧
    (mainRun env none langs fs).outcome ≠ .exited 1 :=
  ⟨rfl, rfl, fun h => Outcome.noConfusion h⟩

/-- C10: where the per-file report is read from and what happens to it.
For a `.rs` source the report is read from the working directory under the
source's base name (`<b>.csv`); for a `.c` source (the non-Rust branch) it
is read from `<expanded dir>/<b>.csv`.  In both cases the report's content
is appended to the aggregate and the artifact is moved into
`<dir>/file-results/<b>.csv` — it persists there rather than being
deleted. -/
theorem C10_report_location_and_move :
    (∀ (env : Env) (dir output_file fp cfArg b irc rep : Str) (fs : FS),
      goodBase b = true →
      basenameL fp = b ++ chars ".rs" →
      env.effects [chars "rustc", chars "--emit=llvm-ir", fp] =
        [(b ++ chars ".ll", irc)] →
      env.effects (optArgv (b ++ chars ".rs")) = [(b ++ chars ".csv", rep)] →
      output_file ≠ b ++ chars ".ll" →
      output_file ≠ b ++ chars ".csv" →
      rsTarget dir b ≠ output_file →
      rsTarget dir b ≠ b ++ chars ".csv" →
      pathJoin dir (chars "file-results") ∈ fs.dirs →
      fs.lookup (rsTarget dir b) = none →
      (run_pass env dir output_file fp cfArg fs).err = none ∧
      (run_pass env dir output_file fp cfArg fs).fs.lookup output_file =
        some ((fs.lookup output_file).getD [] ++ rep) ∧
      (run_pass env dir output_file fp cfArg fs).fs.lookup (rsTarget dir b) = some rep ∧
      (run_pass env dir output_file fp cfArg fs).fs.lookup (b ++ chars ".csv") = none) ∧
    (∀ (env : Env) (dir output_file fp cfArg b irc rep : Str) (fs : FS),
      goodBase b = true →
      basenameL fp = b ++ chars ".c" →
      env.effects [chars "clang", chars "-emit-llvm", chars "-S", fp] =
        [(b ++ chars ".ll", irc)] →
      env.effects (optArgv (b ++ chars ".c")) = [(cPath env dir b, rep)] →
      output_file ≠ b ++ chars ".ll" →
      output_file ≠ cPath env dir b →
      cTarget env dir b ≠ output_file →
      cTarget env dir b ≠ cPath env dir b →
      pathJoin (expanduser env.home dir) (chars "file-results") ∈ fs.dirs →
      fs.lookup (cTarget env dir b) = none →
      (run_pass env dir output_file fp cfArg fs).err = none ∧
      (run_pass env dir output_file fp cfArg fs).fs.lookup output_file =
        some ((fs.lookup output_file).getD [] ++ rep) ∧
      (run_pass env dir output_file fp cfArg fs).fs.lookup (cTarget env dir b) = some rep ∧
      (run_pass env dir output_file fp cfArg fs).fs.lookup (cPath env dir b) = none) := by
  constructor
  · intro env dir output_file fp cfArg b irc rep fs hb hbn hrustc hopt hne1 hne2 hne3
      hne4 hdir hfree
    obtain ⟨h1, h2, h3, h4, h5, h6⟩ := run_pass_rs_success_state env dir output_file fp
      cfArg b irc rep fs hb hbn hrustc hopt hne1 hne2 hne3 hne4 hdir hfree
    exact ⟨h1, h3, h4, h5⟩
  · intro env dir output_file fp cfArg b irc rep fs hb hbn hclang hopt hne1 hne2 hne3
      hne4 hdir hfree
    obtain ⟨h1, h2, h3, h4, h5, h6⟩ := run_pass_c_success_state env dir output_file fp
      cfArg b irc rep fs hb hbn hclang hopt hne1 hne2 hne3 hne4 hdir hfree
    exact ⟨h1, h3, h4, h5⟩

/-- C10 witness: both branches applied to concrete Rust and C scenarios. -/
theorem C10_report_location_and_move_witness :
    ((run_pass envRsOk (chars "/r") (chars "/r/results.csv") (chars "/r/b.rs")
      (chars "/r/file-results") fsOneRs).err = none ∧
    (run_pass envRsOk (chars "/r") (chars "/r/results.csv") (chars "/r/b.rs")
      (chars "/r/file-results") fsOneRs).fs.lookup (chars "/r/results.csv") =
      some ((fsOneRs.lookup (chars "/r/results.csv")).getD [] ++ chars "3,4\n") ∧
    (run_pass envRsOk (chars "/r") (chars "/r/results.csv") (chars "/r/b.rs")
      (chars "/r/file-results") fsOneRs).fs.lookup
        (rsTarget (chars "/r") (chars "b")) = some (chars "3,4\n") ∧
    (run_pass envRsOk (chars "/r") (chars "/r/results.csv") (chars "/r/b.rs")
      (chars "/r/file-results") fsOneRs).fs.lookup (chars "b" ++ chars ".csv") = none) ∧
    ((run_pass envCOk (chars "/r") (chars "/r/results.csv") (chars "/r/a.c")
      (chars "/r/file-results") fsOneC).err = none ∧
    (run_pass envCOk (chars "/r") (chars "/r/results.csv") (chars "/r/a.c")
      (chars "/r/file-results") fsOneC).fs.lookup (chars "/r/results.csv") =
      some ((fsOneC.lookup (chars "/r/results.csv")).getD [] ++ chars "1,2\n") ∧
    (run_pass envCOk (chars "/r") (chars "/r/results.csv") (chars "/r/a.c")
      (chars "/r/file-results") fsOneC).fs.lookup
        (cTarget envCOk (chars "/r") (chars "a")) = some (chars "1,2\n") ∧
    (run_pass envCOk (chars "/r") (chars "/r/results.csv") (chars "/r/a.c")
      (chars "/r/file-results") fsOneC).fs.lookup
        (cPath envCOk (chars "/r") (chars "a")) = none) :=
  ⟨C10_report_location_and_move.1 envRsOk (chars "/r") (chars "/r/results.csv")
      (chars "/r/b.rs") (chars "/r/file-results") (chars "b") (chars "ir")
      (chars "3,4\n") fsOneRs (by decide) (by decide) (by decide) (by decide)
      (by decide) (by decide) (by decide) (by decide) (by decide) (by decide),
   C10_report_location_and_move.2 envCOk (chars "/r") (chars "/r/results.csv")
      (chars "/r/a.c") (chars "/r/file-results") (chars "a") (chars "ir")
      (chars "1,2\n") fsOneC (by decide) (by decide) (by decide) (by decide)
      (by decide) (by decide) (by decide) (by decide) (by decide) (by decide)⟩
